import Mathlib

/-!
The transfer engine of go-tftp.

A shallow embedding of `main.go` and `transfer.go`: the two registries
(`inFlight`, `store`), the five packet handlers, the dispatcher `newPacket`
and one pass of the supervisor loop `flush`.

Conventions of the embedding.

* A Go `map[string]transfer` is an association list; the list order stands for
  the (unspecified) iteration order of `range`.
* A Go `[]byte` whose capacity matters (`pkt.Data`) is a `Slice`: the visible
  elements together with the rest of the backing array.
* The `[]byte` fields of a `transfer` (`data`, `sendData`) are the lists of
  their visible elements. The backing array of `data` and its sharing between
  copies of a `transfer` are not represented: where Go's `append` writes in
  place into an array that another copy also views, byte values of that other
  copy change in Go and not here. Lengths and the other fields do not depend
  on it. The byte values of `data` are those of Go for the transfer a handler
  works on within one call; along a run they can differ once DATA packets have
  extended two sessions read from one stored file.
* `uint16` values are `Nat` reduced `% 65536`, `int64` durations are `Int`
  wrapped by `wrap64`.
* `conn.WriteTo` is the only output. Every call is recorded as a `WriteTo`
  event; whether it succeeds (`ok`) and the reading of `time.Now()` are inputs.
* A run-time panic (slice bound out of range, failed type assertion) is
  `Except.error`.
-/

namespace Tftp

/-! ## Basic types -/

/-- One octet. -/
abbrev Byte := Nat

/-- The type `time.Time`, in nanoseconds since the zero time. -/
abbrev Time := Int

/-- The type `time.Duration`: a signed 64-bit count of nanoseconds. -/
abbrev Duration := Int

/-- The interface `net.PacketConn`: the handle of a socket. -/
abbrev Conn := Nat

/-- The interface `net.Addr`: the two methods of the interface. -/
structure Addr where
  network : String
  string : String
  deriving DecidableEq, Repr

/-- Run-time panics of the Go program. -/
inductive Fault where
  | sliceBounds
  | typeAssertion
  deriving DecidableEq, Repr

def minDuration : Duration := -(2 ^ 63)

def maxDuration : Duration := 2 ^ 63 - 1

/-- Two's-complement wrap-around of `int64` arithmetic. -/
def wrap64 (x : Int) : Int := (x + 2 ^ 63) % 2 ^ 64 - 2 ^ 63

/-- The constant `time.Second`. -/
def Second : Duration := 1000000000

/-- The method `t.Sub(u)`: the difference, saturated to the range of `Duration`. -/
def Time.Sub (t u : Time) : Duration :=
  if t - u > maxDuration then maxDuration
  else if t - u < minDuration then minDuration
  else t - u

/-- Wrap-around of `uint16` arithmetic. -/
def u16 (x : Nat) : Nat := x % 65536

/-- The constant `const maxDataSize = 512`. -/
def maxDataSize : Nat := 512

/-! ## Byte slices with capacity -/

/-- A Go `[]byte` value: `elems` is `s[0:len(s)]`, `spare` is the part of the
backing array between `len(s)` and `cap(s)`. The nil slice has both empty. -/
structure Slice where
  elems : List Byte
  spare : List Byte
  deriving DecidableEq, Repr

namespace Slice

/-- The nil slice. -/
def nil : Slice := ⟨[], []⟩

def len (s : Slice) : Nat := s.elems.length

def cap (s : Slice) : Nat := s.elems.length + s.spare.length

/-- The slice expression `s[:n]`: panics unless `0 <= n <= cap(s)`; may reach into the spare
capacity. -/
def upTo (s : Slice) (n : Int) : Except Fault (List Byte) :=
  if 0 ≤ n ∧ n ≤ (s.cap : Int) then .ok ((s.elems ++ s.spare).take n.toNat)
  else .error .sliceBounds

end Slice

/-- The function `bytes.TrimRight(s, "\x00")`: `s[:i]`; the trimmed bytes stay in the
backing array and become spare capacity. -/
def TrimRight (s : Slice) : Slice :=
  ⟨s.elems.rdropWhile (· == 0), s.elems.rtakeWhile (· == 0) ++ s.spare⟩

/-- The function `bytes.TrimLeft(s, "\x00")`: `s[i:]`, or nil when nothing is left. -/
def TrimLeft (s : Slice) : Slice :=
  let e := s.elems.dropWhile (· == 0)
  if e = [] then Slice.nil else ⟨e, s.spare⟩

/-- The function `bytes.Trim(s, "\x00")`. -/
def Trim (s : Slice) : Slice := TrimLeft (TrimRight s)

/-! ## Packets (package `wire`) -/

structure PacketRequest where
  Op : Nat
  Filename : String
  Mode : String
  deriving DecidableEq, Repr

structure PacketData where
  BlockNum : Nat
  Data : Slice
  deriving DecidableEq, Repr

structure PacketAck where
  BlockNum : Nat
  deriving DecidableEq, Repr

structure PacketError where
  Code : Nat
  Msg : String
  deriving DecidableEq, Repr

/-- The interface `tftp.Packet`. -/
inductive Packet where
  | request (p : PacketRequest)
  | data (p : PacketData)
  | ack (p : PacketAck)
  | error (p : PacketError)
  deriving DecidableEq, Repr

def OpRRQ : Nat := 1
def OpWRQ : Nat := 2
def OpData : Nat := 3
def OpAck : Nat := 4
def OpError : Nat := 5

/-- Modelled from the spec: `MaxPacketSize` of package `wire`, "header
(4 bytes) + maximum block (512 bytes) = 516 bytes". -/
def MaxPacketSize : Nat := 516

/-- Big-endian encoding of a 16-bit value. -/
def putUint16 (x : Nat) : List Byte := [x / 256 % 256, x % 256]

/-- The function `binary.BigEndian.Uint16(buf)`; panics on fewer than two bytes. -/
def Uint16 : List Byte → Except Fault Nat
  | a :: b :: _ => .ok (a % 256 * 256 + b % 256)
  | _ => .error .sliceBounds

/-- The bytes of a Go string. -/
def stringBytes (s : String) : List Byte :=
  (s.toList.flatMap String.utf8EncodeChar).map UInt8.toNat

/-- Modelled from the spec: `Serialize` of package `wire`. "Read/Write
Request: opcode, null-terminated filename, null-terminated transfer mode
string. Data: opcode, 2-byte block number, payload. Ack: opcode, 2-byte block
number. Error: opcode, 2-byte error code, null-terminated message", opcodes
2-byte big-endian. -/
def Packet.Serialize : Packet → List Byte
  | .request p => putUint16 p.Op ++ stringBytes p.Filename ++ [0] ++ stringBytes p.Mode ++ [0]
  | .data p => putUint16 OpData ++ putUint16 p.BlockNum ++ p.Data.elems
  | .ack p => putUint16 OpAck ++ putUint16 p.BlockNum
  | .error p => putUint16 OpError ++ putUint16 p.Code ++ stringBytes p.Msg ++ [0]

/-! ## Transfers and the registries -/

/-- The struct `transfer`. The fields `data` and `sendData` hold the elements
visible through the slice; the backing array and its sharing with other
copies of the struct are not represented. -/
structure transfer where
  lastOp : Time := 0
  addr : Addr
  conn : Conn
  blockNum : Nat := 0
  filename : String := ""
  data : List Byte := []
  sendData : List Byte := []
  retry : Bool := false
  deriving DecidableEq, Repr

/-- A `map[string]transfer`. -/
abbrev Registry := List (String × transfer)

/-- The lookup `m[k]` with the comma-ok form. -/
def lookup (m : Registry) (k : String) : Option transfer :=
  (m.find? (fun e => e.1 == k)).map Prod.snd

/-- The builtin `delete(m, k)`. -/
def delete (m : Registry) (k : String) : Registry :=
  m.filter (fun e => e.1 != k)

/-- The assignment `m[k] = v`. -/
def assign (m : Registry) (k : String) (v : transfer) : Registry :=
  delete m k ++ [(k, v)]

/-- The two global maps. -/
structure State where
  inFlight : Registry := []
  store : Registry := []
  deriving DecidableEq, Repr

/-- One call of `conn.WriteTo(bytes, addr)`. -/
structure WriteTo where
  conn : Conn
  bytes : List Byte
  addr : Addr
  deriving DecidableEq, Repr

/-- The table `errorCodes`; a missing key gives the empty string. -/
def errorCodes (code : Nat) : String :=
  match code with
  | 0 => "Not defined, see error message (if any)."
  | 1 => "File not found."
  | 2 => "Access violation"
  | 3 => "Disk full or allocation exceeded."
  | 4 => "Illegal TFTP operation."
  | 5 => "Unknown transfer ID."
  | 6 => "File already exists."
  | 7 => "No such user."
  | _ => ""

/-! ## transfer.go -/

/-- The method `(t *transfer) transmit()`: one `WriteTo` of `t.sendData`; `ok` tells
whether it succeeded, `now` is the reading of `time.Now()` on success. -/
def transmit (t : transfer) (ok : Bool) (now : Time) : transfer × WriteTo :=
  let w : WriteTo := ⟨t.conn, t.sendData, t.addr⟩
  if ok then ({ t with retry := false, lastOp := now }, w)
  else ({ t with retry := true }, w)

/-- The method `(t *transfer) send(r)`. -/
def send (t : transfer) (r : Packet) (ok : Bool) (now : Time) : transfer × WriteTo :=
  transmit { t with sendData := r.Serialize } ok now

/-- The function `sendError(code, addr, conn)`: the outcome of the write is only logged. -/
def sendError (code : Nat) (addr : Addr) (conn : Conn) : WriteTo :=
  ⟨conn, (Packet.error ⟨code, errorCodes code⟩).Serialize, addr⟩

/-- The function `findTransfer(block, addr)`: the first entry, in iteration order, with the
block number and the endpoint string; `none` is the error result. -/
def findTransfer (inFlight : Registry) (block : Nat) (addr : Addr) : Option transfer :=
  (inFlight.find? (fun e => e.2.blockNum == block && addr.string == e.2.addr.string)).map Prod.snd

/-- The function `wrqHandler(conn, p, addr)` after the type assertion. -/
def wrqHandler (s : State) (conn : Conn) (pkt : PacketRequest) (addr : Addr)
    (ok : Bool) (now : Time) : State × List WriteTo :=
  if (lookup s.store pkt.Filename).isSome then
    (s, [sendError 6 addr conn])
  else
    let t : transfer := { blockNum := 1, addr := addr, conn := conn, filename := pkt.Filename }
    let res : PacketAck := { BlockNum := 0 }
    let (t, w) := send t (.ack res) ok now
    ({ s with inFlight := assign s.inFlight t.filename t }, [w])

/-- The function `rrqHandler(conn, p, addr)` after the type assertion. -/
def rrqHandler (s : State) (conn : Conn) (pkt : PacketRequest) (addr : Addr)
    (ok : Bool) (now : Time) : State × List WriteTo :=
  match lookup s.store pkt.Filename with
  | none => (s, [sendError 1 addr conn])
  | some t =>
    let t := { t with blockNum := 1, addr := addr, conn := conn, filename := addr.string }
    let data : List Byte :=
      if t.data.length ≥ maxDataSize then t.data.take maxDataSize else t.data
    let res : PacketData := { Data := ⟨data, []⟩, BlockNum := t.blockNum }
    let (t, w) := send t (.data res) ok now
    ({ s with inFlight := assign s.inFlight t.filename t }, [w])

/-- The function `dataHandler(conn, p, addr, n)` after the type assertion.
The call `append(t.data, d[:n]...)` is the concatenation of the visible bytes:
that is the new value of `t.data`. When the array behind `t.data` has room,
Go writes the bytes in place, which also changes what any other `transfer`
viewing the same array beyond the length of `t.data` shows (a file in the
store that `rrqHandler` copied into two sessions); that effect on other
entries is not represented. -/
def dataHandler (s : State) (conn : Conn) (pkt : PacketData) (addr : Addr) (n : Int)
    (ok : Bool) (now : Time) : Except Fault (State × List WriteTo) :=
  match findTransfer s.inFlight pkt.BlockNum addr with
  | none => .ok (s, [sendError 5 addr conn])
  | some t =>
    let d := Trim pkt.Data
    match d.upTo n with
    | .error f => .error f
    | .ok dn =>
      let t := { t with data := t.data ++ dn }
      let t := { t with blockNum := u16 (t.blockNum + 1) }
      let res : PacketAck := { BlockNum := pkt.BlockNum }
      let (t, w) := send t (.ack res) ok now
      if n < maxDataSize then
        .ok ({ store := assign s.store t.filename t,
               inFlight := delete s.inFlight t.filename }, [w])
      else
        .ok ({ s with inFlight := assign s.inFlight t.filename t }, [w])

/-- The function `ackHandler(conn, p, addr)` after the type assertion. `tsize` and `rsize`
are `uint16` products. -/
def ackHandler (s : State) (_conn : Conn) (pkt : PacketAck) (addr : Addr)
    (ok : Bool) (now : Time) : Except Fault (State × List WriteTo) :=
  match findTransfer s.inFlight pkt.BlockNum addr with
  | none => .ok (s, [])
  | some t =>
    let t := { t with blockNum := u16 (t.blockNum + 1) }
    let tsize := u16 (t.blockNum * maxDataSize)
    let rsize := u16 (pkt.BlockNum * maxDataSize)
    if t.data.length ≥ tsize then
      -- t.data[rsize:tsize]
      if rsize ≤ tsize then
        let data := (t.data.take tsize).drop rsize
        let res : PacketData := { BlockNum := t.blockNum, Data := ⟨data, []⟩ }
        let (t, w) := send t (.data res) ok now
        .ok ({ s with inFlight := assign s.inFlight t.filename t }, [w])
      else .error .sliceBounds
    else if t.data.length < rsize then
      .ok ({ s with inFlight := delete s.inFlight t.filename }, [])
    else
      -- t.data[rsize:]
      let data := t.data.drop rsize
      let res : PacketData := { BlockNum := t.blockNum, Data := ⟨data, []⟩ }
      let (t, w) := send t (.data res) ok now
      .ok ({ s with inFlight := assign s.inFlight t.filename t }, [w])

/-- The function `errHandler(p, addr)`: logging only. -/
def errHandler (s : State) (_pkt : PacketError) (_addr : Addr) : State × List WriteTo :=
  (s, [])

/-! ## main.go -/

/-- A NUL-terminated string at the head of `l`, and what follows it; every
byte is read as one character. -/
def cstring (l : List Byte) : Option (String × List Byte) :=
  if 0 ∈ l then
    some (String.mk ((l.takeWhile (· != 0)).map Char.ofNat), (l.dropWhile (· != 0)).drop 1)
  else none

/-- Modelled from the spec: `ParsePacket` of package `wire`, the decoder of
the packet shapes "Read/Write Request: opcode, null-terminated filename,
null-terminated transfer mode string. Data: opcode, 2-byte block number,
payload (0–512 bytes). Ack: opcode, 2-byte block number. Error: opcode, 2-byte
error code, null-terminated message"; `none` is the decode error. The payload
of a Data packet is the rest of the buffer it was given. -/
def ParsePacket (buf : List Byte) : Option Packet :=
  match buf with
  | a :: b :: rest =>
    let op := a % 256 * 256 + b % 256
    if op = OpRRQ ∨ op = OpWRQ then
      match cstring rest with
      | some (f, rest) =>
        match cstring rest with
        | some (m, _) => some (.request ⟨op, f, m⟩)
        | none => none
      | none => none
    else if op = OpData then
      match rest with
      | c :: d :: data => some (.data ⟨c % 256 * 256 + d % 256, ⟨data, []⟩⟩)
      | _ => none
    else if op = OpAck then
      match rest with
      | c :: d :: _ => some (.ack ⟨c % 256 * 256 + d % 256⟩)
      | _ => none
    else if op = OpError then
      match rest with
      | c :: d :: rest =>
        match cstring rest with
        | some (m, _) => some (.error ⟨c % 256 * 256 + d % 256, m⟩)
        | none => none
      | _ => none
    else none
  | _ => none

/-- The function `newPacket(conn, addr, buf, n)`: `buf` is the whole receive buffer, `n`
the number of bytes read into it. -/
def newPacket (s : State) (conn : Conn) (addr : Addr) (buf : List Byte) (n : Int)
    (ok : Bool) (now : Time) : Except Fault (State × List WriteTo) :=
  match ParsePacket buf with
  | none => .ok (s, [sendError 0 addr conn])
  | some p =>
    match Uint16 buf with
    | .error f => .error f
    | .ok op =>
      if op = OpWRQ then
        match p with
        | .request r => .ok (wrqHandler s conn r addr ok now)
        | _ => .error .typeAssertion
      else if op = OpRRQ then
        match p with
        | .request r => .ok (rrqHandler s conn r addr ok now)
        | _ => .error .typeAssertion
      else if op = OpAck then
        match p with
        | .ack r => ackHandler s conn r addr ok now
        | _ => .error .typeAssertion
      else if op = OpData then
        match p with
        | .data r => dataHandler s conn r addr (n - 4) ok now
        | _ => .error .typeAssertion
      else if op = OpError then
        match p with
        | .error r => .ok (errHandler s r addr)
        | _ => .error .typeAssertion
      else .ok (s, [sendError 0 addr conn])

/-- The flags `Rexmt-interval` and `Max-timeout`, in seconds. -/
structure Config where
  rexmtInterval : Int := 5
  maxTimeout : Int := 25
  deriving DecidableEq, Repr

/-- What one iteration of the loop of `flush` reads from its environment:
`time.Now()` in the expiry test, `time.Now()` in the retransmit test, and for
`transmit` the outcome of `WriteTo` and its `time.Now()`. -/
structure Tick where
  now1 : Time
  now2 : Time
  ok : Bool
  now3 : Time
  deriving DecidableEq, Repr

/-- The test `d < time.Now().Sub(t.lastOp)` with `d` the maximum timeout. -/
def expired (cfg : Config) (k : Tick) (t : transfer) : Bool :=
  decide (wrap64 (Second * cfg.maxTimeout) < Time.Sub k.now1 t.lastOp)

/-- The test `td < time.Now().Sub(t.lastOp)` with `td` the retransmit interval. -/
def due (cfg : Config) (k : Tick) (t : transfer) : Bool :=
  decide (wrap64 (Second * cfg.rexmtInterval) < Time.Sub k.now2 t.lastOp)

/-- The loop `for _, t := range inFlight` of `flush`: `pending` are the entries
not yet reached, `m` is the map as it stands. An entry deleted before it is
reached is not produced. The loop variable `t` is a copy: what `transmit`
does to it is dropped at the end of the iteration. -/
def flushRange (cfg : Config) (env : String → Tick) :
    List (String × transfer) → Registry → List WriteTo → Registry × List WriteTo
  | [], m, out => (m, out)
  | (k, t) :: pending, m, out =>
    if (lookup m k).isNone then flushRange cfg env pending m out
    else if expired cfg (env k) t then
      flushRange cfg env pending (delete m t.filename) out
    else if t.retry then
      if due cfg (env k) t then
        let (_, w) := transmit t (env k).ok (env k).now3
        flushRange cfg env pending m (out ++ [w])
      else flushRange cfg env pending m out
    else flushRange cfg env pending m out

/-- One tick of `flush`: the pass over `inFlight` under the lock. -/
def flush (cfg : Config) (s : State) (env : String → Tick) : State × List WriteTo :=
  let r := flushRange cfg env s.inFlight s.inFlight []
  ({ s with inFlight := r.1 }, r.2)

/-! ## Runs of the server -/

/-- One atomic step of the server: a handler, a pass of the supervisor, or a
change of the iteration order of a map (which Go leaves unspecified). A step
that panics has no successor. -/
inductive Step (cfg : Config) : State → State → Prop where
  | wrq (s : State) (conn : Conn) (pkt : PacketRequest) (addr : Addr) (ok : Bool) (now : Time) :
      Step cfg s (wrqHandler s conn pkt addr ok now).1
  | rrq (s : State) (conn : Conn) (pkt : PacketRequest) (addr : Addr) (ok : Bool) (now : Time) :
      Step cfg s (rrqHandler s conn pkt addr ok now).1
  | data (s : State) (conn : Conn) (pkt : PacketData) (addr : Addr) (n : Int) (ok : Bool)
      (now : Time) (s' : State) (out : List WriteTo) :
      dataHandler s conn pkt addr n ok now = .ok (s', out) → Step cfg s s'
  | ack (s : State) (conn : Conn) (pkt : PacketAck) (addr : Addr) (ok : Bool)
      (now : Time) (s' : State) (out : List WriteTo) :
      ackHandler s conn pkt addr ok now = .ok (s', out) → Step cfg s s'
  | err (s : State) (pkt : PacketError) (addr : Addr) :
      Step cfg s (errHandler s pkt addr).1
  | sweep (s : State) (env : String → Tick) :
      Step cfg s (flush cfg s env).1
  | order (s : State) (m₁ m₂ : Registry) :
      m₁.Perm s.inFlight → m₂.Perm s.store → Step cfg s ⟨m₁, m₂⟩

/-- The states the server can be in, from the empty registries of `init`. -/
inductive Reachable (cfg : Config) : State → Prop where
  | init : Reachable cfg {}
  | step {s s' : State} : Reachable cfg s → Step cfg s s' → Reachable cfg s'

/-! ## The packets sent for a session -/

/-- The calls of `t.send(r)` made by the handlers, oldest first, each under
the key `t.filename` with which the handler then files `t` in a registry. The
replies of `sendError` and the retransmissions of `flush` are not calls of
`t.send` and are not recorded. -/
abbrev SendLog := List (String × WriteTo)

/-- The last packet that a handler sent for the session with key `k`. -/
def lastSent (log : SendLog) (k : String) : Option WriteTo :=
  (log.reverse.find? (fun e => e.1 == k)).map Prod.snd

/-- The output of a handler, recorded under the key `k` of the session whose
`send` produced it; nothing is recorded when the handler did not call `send`. -/
def tagged (k : Option String) (out : List WriteTo) : SendLog :=
  match k with
  | none => []
  | some k => out.map (fun w => (k, w))

/-- The session for which `wrqHandler` calls `t.send`: the requested file
name, unless the file exists and the reply is `sendError`. -/
def wrqSession (s : State) (pkt : PacketRequest) : Option String :=
  if (lookup s.store pkt.Filename).isSome then none else some pkt.Filename

/-- The session for which `rrqHandler` calls `t.send`: `addr.String()`, unless
the file is missing and the reply is `sendError`. -/
def rrqSession (s : State) (pkt : PacketRequest) (addr : Addr) : Option String :=
  match lookup s.store pkt.Filename with
  | none => none
  | some _ => some addr.string

/-- The session for which `dataHandler` calls `t.send`: the transfer that
`findTransfer` returns; none when the reply is `sendError`. -/
def dataSession (s : State) (pkt : PacketData) (addr : Addr) : Option String :=
  (findTransfer s.inFlight pkt.BlockNum addr).map (fun t => t.filename)

/-- The session for which `ackHandler` calls `t.send`, if it sends: the
transfer that `findTransfer` returns. -/
def ackSession (s : State) (pkt : PacketAck) (addr : Addr) : Option String :=
  (findTransfer s.inFlight pkt.BlockNum addr).map (fun t => t.filename)

/-- The runs of the server together with the log of the packets its handlers
sent: the steps are those of `Step`, from the empty registries and the empty
log. -/
inductive Logged (cfg : Config) : State → SendLog → Prop where
  | init : Logged cfg {} []
  | wrq {s : State} {log : SendLog} (conn : Conn) (pkt : PacketRequest) (addr : Addr)
      (ok : Bool) (now : Time) : Logged cfg s log →
      Logged cfg (wrqHandler s conn pkt addr ok now).1
        (log ++ tagged (wrqSession s pkt) (wrqHandler s conn pkt addr ok now).2)
  | rrq {s : State} {log : SendLog} (conn : Conn) (pkt : PacketRequest) (addr : Addr)
      (ok : Bool) (now : Time) : Logged cfg s log →
      Logged cfg (rrqHandler s conn pkt addr ok now).1
        (log ++ tagged (rrqSession s pkt addr) (rrqHandler s conn pkt addr ok now).2)
  | data {s : State} {log : SendLog} (conn : Conn) (pkt : PacketData) (addr : Addr) (n : Int)
      (ok : Bool) (now : Time) (s' : State) (out : List WriteTo) : Logged cfg s log →
      dataHandler s conn pkt addr n ok now = .ok (s', out) →
      Logged cfg s' (log ++ tagged (dataSession s pkt addr) out)
  | ack {s : State} {log : SendLog} (conn : Conn) (pkt : PacketAck) (addr : Addr)
      (ok : Bool) (now : Time) (s' : State) (out : List WriteTo) : Logged cfg s log →
      ackHandler s conn pkt addr ok now = .ok (s', out) →
      Logged cfg s' (log ++ tagged (ackSession s pkt addr) out)
  | err {s : State} {log : SendLog} (pkt : PacketError) (addr : Addr) : Logged cfg s log →
      Logged cfg (errHandler s pkt addr).1 log
  | sweep {s : State} {log : SendLog} (env : String → Tick) : Logged cfg s log →
      Logged cfg (flush cfg s env).1 log
  | order {s : State} {log : SendLog} (m₁ m₂ : Registry) : Logged cfg s log →
      m₁.Perm s.inFlight → m₂.Perm s.store → Logged cfg ⟨m₁, m₂⟩ log

/-- Every in-flight entry holds, as `sendData`, `conn` and `addr`, the last
packet of the log under its key. -/
def HoldsLastSent (m : Registry) (log : SendLog) : Prop :=
  ∀ e ∈ m, lastSent log e.1 = some ⟨e.2.conn, e.2.sendData, e.2.addr⟩

/-! ## Predicates on states -/

/-- Every entry is stored under its own `filename`, and no key occurs twice. -/
def KeysOk (m : Registry) : Prop :=
  (∀ e ∈ m, e.2.filename = e.1) ∧ (m.map Prod.fst).Nodup

/-- Every entry of the map is stored under its own `filename`. -/
def NamedByKey (m : Registry) : Prop := ∀ e ∈ m, e.2.filename = e.1

/-- Every entry of the map holds, as `sendData`, the serialization of a packet. -/
def HoldsSerialized (m : Registry) : Prop := ∀ e ∈ m, ∃ p : Packet, e.2.sendData = p.Serialize

/-- The in-flight registry holds one read session of `addr`, waiting for the
ACK of block `k`, over at least 64512 bytes. -/
def ReadingAt (s : State) (addr : Addr) (k : Nat) : Prop :=
  ∃ t, s.inFlight = [(addr.string, t)] ∧ t.blockNum = k ∧ t.addr.string = addr.string ∧
    t.filename = addr.string ∧ 64512 ≤ t.data.length

/-- The in-flight registry consists of the entries `rest`, none of them under
the endpoint string of `addr` or with that endpoint string, and of one session
of `addr` through `conn`, stored under the endpoint string, waiting for the ACK
of block `k`, with buffer `data`. -/
def ReadSession (s : State) (rest : Registry) (conn : Conn) (addr : Addr) (k : Nat)
    (data : List Byte) : Prop :=
  ∃ t, s.inFlight = rest ++ [(addr.string, t)] ∧
    (∀ e ∈ rest, e.1 ≠ addr.string ∧ e.2.addr.string ≠ addr.string) ∧
    t.blockNum = k ∧ t.addr = addr ∧ t.conn = conn ∧ t.filename = addr.string ∧ t.data = data

/-- The bytes of `data` from offset `512 * i`, at most 512 of them. -/
def block (data : List Byte) (i : Nat) : List Byte :=
  (data.drop (i * maxDataSize)).take maxDataSize

/-- The `WriteTo` of the DATA packet with block number `i + 1` that carries
block `i` of `data`. -/
def dataBlock (conn : Conn) (addr : Addr) (data : List Byte) (i : Nat) : WriteTo :=
  ⟨conn, (Packet.data ⟨i + 1, ⟨block data i, []⟩⟩).Serialize, addr⟩

/-! ## Sample values -/

/-- A sample endpoint. -/
def clientA : Addr := ⟨"udp", "10.0.0.1:4000"⟩

/-- A second sample endpoint. -/
def clientB : Addr := ⟨"udp", "10.0.0.2:4000"⟩

/-- A sample completed file "f" of two bytes. -/
def fileF : transfer :=
  { lastOp := 100, addr := clientA, conn := 7, blockNum := 2, filename := "f",
    data := [5, 6], sendData := [0, 4, 0, 1], retry := false }

/-- A sample write session for "g", opened by `clientA`, waiting for block 1. -/
def sessionG : transfer :=
  { lastOp := 100, addr := clientA, conn := 7, blockNum := 1, filename := "g",
    data := [], sendData := [0, 4, 0, 0], retry := false }

/-- The receive buffer after `conn.ReadFrom`: `make([]byte, MaxPacketSize)`
with the datagram copied to its front. -/
def recvBuf (datagram : List Byte) : List Byte :=
  datagram ++ List.replicate (MaxPacketSize - datagram.length) 0

/-- The payload of a DATA packet as the dispatcher passes it to `dataHandler`:
the bytes received, followed by the unused rest of the 512-byte payload area
of the receive buffer, which `make` has zeroed. -/
def delivered (payload : List Byte) : Slice :=
  ⟨payload ++ List.replicate (maxDataSize - payload.length) 0, []⟩

/-- The datagram of a write request for "f" in mode "octet". -/
def wrqDatagramF : List Byte := [0, 2, 102, 0, 111, 99, 116, 101, 116, 0]

/-- The datagram of a write request for the file named "10.0.0.1:4000". -/
def wrqDatagramA : List Byte :=
  [0, 2, 49, 48, 46, 48, 46, 48, 46, 49, 58, 52, 48, 48, 48, 0, 111, 99, 116, 101, 116, 0]

/-- The datagram of a read request for the file named "10.0.0.1:4000". -/
def rrqDatagramA : List Byte :=
  [0, 1, 49, 48, 46, 48, 46, 48, 46, 49, 58, 52, 48, 48, 48, 0, 111, 99, 116, 101, 116, 0]

/-- The clock of a pass of the supervisor that reads the same instant `now`
everywhere and whose `WriteTo` calls succeed. -/
def steadyClock (now : Time) : String → Tick := fun _ => ⟨now, now, true, now⟩

/-- The `WriteTo` of a retransmission of `t`. -/
def retransmission (t : transfer) : WriteTo := ⟨t.conn, t.sendData, t.addr⟩

/-- The request packet of a write of "f". -/
def wrqF : PacketRequest := ⟨OpWRQ, "f", "octet"⟩

/-- The request packet of a write of "g". -/
def wrqG : PacketRequest := ⟨OpWRQ, "g", "octet"⟩

/-- The state after `clientA` opened a write of "f" at second 0 and `clientB`
a write of "g" at second 30. -/
def twoSessions : State :=
  (wrqHandler (wrqHandler {} 7 wrqF clientA true 0).1 7 wrqG clientB true (30 * Second)).1

/-- A write session for "g" of `clientA` that has received 65534 full blocks
and waits for block 65535. -/
def lastBlockG : transfer :=
  { lastOp := 100, addr := clientA, conn := 7, blockNum := 65535, filename := "g",
    data := List.replicate (65534 * 512) 1, sendData := [0, 4, 255, 254], retry := false }

/-! ## A read exchange -/

/-- The ACKs of a read exchange: the requesting endpoint acknowledges blocks
`b`, `b + 1`, ... until its session is gone from the in-flight registry, the
handler panics, or `fuel` ACKs have been handled. `env b` gives the outcome of
the `WriteTo` and the clock for the ACK of block `b`. The result is the list
of `WriteTo` calls made, and the final state or the panic. -/
def readAcks (conn : Conn) (addr : Addr) (env : Nat → Bool × Time) :
    Nat → Nat → State → List WriteTo → List WriteTo × Except Fault State
  | 0, _, s, out => (out, .ok s)
  | fuel + 1, b, s, out =>
    if (lookup s.inFlight addr.string).isNone then (out, .ok s)
    else
      match ackHandler s conn ⟨b⟩ addr (env b).1 (env b).2 with
      | .error f => (out, .error f)
      | .ok (s', o) => readAcks conn addr env fuel (b + 1) s' (out ++ o)

/-- A full read exchange: the read request, then Ack(1), Ack(2), ... from the
requesting endpoint. -/
def readExchange (s : State) (conn : Conn) (pkt : PacketRequest) (addr : Addr)
    (env : Nat → Bool × Time) (fuel : Nat) : List WriteTo × Except Fault State :=
  let r := rrqHandler s conn pkt addr (env 0).1 (env 0).2
  readAcks conn addr env fuel 1 r.1 r.2

/-- A sample completed file "f" of 65536 bytes. -/
def bigFileF : transfer :=
  { lastOp := 100, addr := clientA, conn := 7, blockNum := 130, filename := "f",
    data := List.replicate 65536 1, sendData := [0, 4, 0, 129], retry := false }

/-- A configuration whose retransmit interval, 9223372037 s, is not below the
maximum timeout of 25 s. -/
def longInterval : Config := { rexmtInterval := 9223372037, maxTimeout := 25 }

/-- A write session for "f" of `clientA` whose Ack(1) failed to send at second
1001: one full block received, `retry` set, `lastOp` still at second 1000. -/
def retrySession : transfer :=
  { lastOp := 1000 * Second, addr := clientA, conn := 7, blockNum := 2, filename := "f",
    data := List.replicate 512 1, sendData := [0, 4, 0, 1], retry := true }

/-- The state with `retrySession` as the only session and no completed file. -/
def retryState : State := ⟨[("f", retrySession)], []⟩

/-- A sample completed file "foo.txt" of 612 bytes: a block of 512 bytes of
value 1 and a block of 100 bytes of value 2. -/
def fooFile : transfer :=
  { lastOp := 300, addr := clientA, conn := 7, blockNum := 3, filename := "foo.txt",
    data := List.replicate 512 1 ++ List.replicate 100 2, sendData := [0, 4, 0, 2],
    retry := false }

/-- The packets sent for the session "f" of `retryState`: Ack(0) for the write
request, then Ack(1) for the first block (the write that failed). -/
def retryLog : SendLog :=
  [("f", ⟨7, [0, 4, 0, 0], clientA⟩), ("f", ⟨7, [0, 4, 0, 1], clientA⟩)]

/-- A configuration whose retransmit interval is 18446744074 s:
`time.Second * 18446744074` overflows `int64` to 290448384 ns. -/
def wrappedInterval : Config := { rexmtInterval := 18446744074, maxTimeout := 25 }

set_option maxRecDepth 20000

/-! ## Lemmas on the registries -/

theorem lookup_eq_none_iff (m : Registry) (k : String) :
    lookup m k = none ↔ k ∉ m.map Prod.fst := by
  simp [lookup, List.find?_eq_none]
  constructor
  · intro h t ht; exact h _ _ ht rfl
  · intro h a t ht e; exact h t (e ▸ ht)

theorem lookup_isSome_iff (m : Registry) (k : String) :
    (lookup m k).isSome ↔ k ∈ m.map Prod.fst := by
  rw [← not_iff_not, ← lookup_eq_none_iff]
  cases lookup m k <;> simp

/-- In a registry without repeated keys, `lookup` finds exactly the entries. -/
theorem lookup_eq_some_iff {m : Registry} (h : (m.map Prod.fst).Nodup) (k : String)
    (t : transfer) : lookup m k = some t ↔ (k, t) ∈ m := by
  induction m with
  | nil => simp [lookup]
  | cons e m ih =>
    obtain ⟨k', t'⟩ := e
    simp only [List.map_cons, List.nodup_cons] at h
    by_cases hk : k' = k
    · subst hk
      have : ∀ t, (k', t) ∉ m := fun t ht => h.1 (List.mem_map.2 ⟨_, ht, rfl⟩)
      simp [lookup, List.find?_cons, this]
      exact eq_comm
    · have ih' := ih h.2
      simp only [lookup] at ih'
      simp [lookup, List.find?_cons, hk, ih', Ne.symm hk]

theorem lookup_filter {m : Registry} (h : (m.map Prod.fst).Nodup)
    (p : String × transfer → Bool) (k : String) (t : transfer) :
    lookup (m.filter p) k = some t ↔ lookup m k = some t ∧ p (k, t) = true := by
  have h' : ((m.filter p).map Prod.fst).Nodup :=
    List.Nodup.sublist (List.Sublist.map _ (List.filter_sublist m)) h
  rw [lookup_eq_some_iff h', lookup_eq_some_iff h, List.mem_filter]

theorem lookup_assign_self (m : Registry) (k : String) (v : transfer) :
    lookup (assign m k v) k = some v := by
  have h : (delete m k).find? (fun e => e.1 == k) = none := by
    rw [List.find?_eq_none]
    intro e he
    have := (List.mem_filter.1 he).2
    simpa [bne] using this
  simp [lookup, assign, List.find?_append, h]

theorem mem_keys_assign (m : Registry) (k : String) (v : transfer) :
    k ∈ (assign m k v).map Prod.fst := by
  simp [assign]

theorem not_mem_keys_delete (m : Registry) (k : String) :
    k ∉ (delete m k).map Prod.fst := by
  simp [delete]

theorem mem_keys_delete_of_ne {m : Registry} {k k' : String} (h : k ∈ m.map Prod.fst)
    (hne : k ≠ k') : k ∈ (delete m k').map Prod.fst := by
  simp only [List.mem_map, delete, List.mem_filter] at h ⊢
  obtain ⟨e, he, rfl⟩ := h
  exact ⟨e, ⟨he, by simpa using hne⟩, rfl⟩

theorem assign_single (a : String) (t t' : transfer) : assign [(a, t)] a t' = [(a, t')] := by
  simp [assign, delete]

theorem findTransfer_eq_none_iff (m : Registry) (block : Nat) (addr : Addr) :
    findTransfer m block addr = none ↔
      ∀ e ∈ m, ¬ (e.2.blockNum = block ∧ addr.string = e.2.addr.string) := by
  simp [findTransfer, List.find?_eq_none]

theorem findTransfer_single {a : String} {t : transfer} {k : Nat} {addr : Addr}
    (hb : t.blockNum = k) (ha : t.addr.string = addr.string) :
    findTransfer [(a, t)] k addr = some t := by
  simp [findTransfer, List.find?_cons, hb, ha]

/-! ## Trimming -/

theorem rdropWhile_append_rtakeWhile (p : Byte → Bool) (l : List Byte) :
    l.rdropWhile p ++ l.rtakeWhile p = l := by
  rw [List.rdropWhile, List.rtakeWhile, ← List.reverse_append,
    List.takeWhile_append_dropWhile, List.reverse_reverse]

/-- Right trimming moves bytes to the spare capacity and loses none. -/
theorem TrimRight_cap (s : Slice) : (TrimRight s).cap = s.cap := by
  have h := congrArg List.length (rdropWhile_append_rtakeWhile (· == 0) s.elems)
  simp only [List.length_append] at h
  simp only [TrimRight, Slice.cap, List.length_append]
  omega

/-- A slice of zero bytes only is trimmed to the nil slice, of capacity 0. -/
theorem Trim_of_all_zero (s : Slice) (h : ∀ x ∈ s.elems, x = 0) : Trim s = Slice.nil := by
  have h1 : s.elems.rdropWhile (· == 0) = [] :=
    List.rdropWhile_eq_nil_iff.2 (fun x hx => by simp [h x hx])
  simp [Trim, TrimLeft, TrimRight, h1]

/-- A slice whose first byte is not zero keeps its capacity under `Trim`. -/
theorem Trim_cap_of_head_ne_zero (s : Slice) (b : Byte) (rest : List Byte)
    (h : s.elems = b :: rest) (hb : b ≠ 0) : (Trim s).cap = s.cap := by
  have hne : s.elems.rdropWhile (· == 0) ≠ [] := by
    intro h0
    have := List.rdropWhile_eq_nil_iff.1 h0 b (by rw [h]; exact List.mem_cons_self _ _)
    simp [hb] at this
  obtain ⟨t, ht⟩ := List.rdropWhile_prefix (p := (· == 0)) (l := s.elems)
  obtain ⟨c, r, hcr⟩ := List.exists_cons_of_ne_nil hne
  have hc : c = b := by
    rw [hcr, h, List.cons_append] at ht
    exact (List.cons.inj ht).1
  subst hc
  have hd : (TrimRight s).elems.dropWhile (· == 0) = (TrimRight s).elems := by
    show (s.elems.rdropWhile (· == 0)).dropWhile (· == 0) = s.elems.rdropWhile (· == 0)
    rw [hcr, List.dropWhile_cons]
    simp [hb]
  have hne' : (TrimRight s).elems ≠ [] := hne
  rw [← TrimRight_cap s]
  simp only [Trim, TrimLeft, hd, hne', if_false]

/-! ## Sending and the data handler -/

theorem transmit_snd (t : transfer) (ok : Bool) (now : Time) :
    (transmit t ok now).2 = retransmission t := by
  unfold transmit retransmission
  split <;> rfl

theorem send_fst (t : transfer) (r : Packet) (ok : Bool) (now : Time) :
    (send t r ok now).1 =
      { t with sendData := r.Serialize, retry := !ok, lastOp := if ok then now else t.lastOp } := by
  cases ok <;> rfl

theorem send_filename (t : transfer) (r : Packet) (ok : Bool) (now : Time) :
    (send t r ok now).1.filename = t.filename := by
  cases ok <;> rfl

/-- The transfer as `dataHandler` leaves it after a matching block: the bytes
`dn` appended, the block number advanced, the Ack serialized and sent. -/
theorem dataHandler_of_found {s : State} (conn : Conn) {pkt : PacketData} {addr : Addr}
    {n : Int} (ok : Bool) (now : Time) {t : transfer} {dn : List Byte}
    (hfind : findTransfer s.inFlight pkt.BlockNum addr = some t)
    (hup : (Trim pkt.Data).upTo n = .ok dn) :
    dataHandler s conn pkt addr n ok now =
      .ok (if n < maxDataSize then
            State.mk (delete s.inFlight t.filename)
              (assign s.store t.filename
                (send { t with data := t.data ++ dn, blockNum := u16 (t.blockNum + 1) }
                  (.ack ⟨pkt.BlockNum⟩) ok now).1)
          else
            State.mk
              (assign s.inFlight t.filename
                (send { t with data := t.data ++ dn, blockNum := u16 (t.blockNum + 1) }
                  (.ack ⟨pkt.BlockNum⟩) ok now).1)
              s.store,
        [⟨t.conn, (Packet.ack ⟨pkt.BlockNum⟩).Serialize, t.addr⟩]) := by
  unfold dataHandler
  simp only [hfind, hup]
  cases ok <;> by_cases hn : n < (maxDataSize : Int) <;> simp [send, transmit, hn]

theorem dataHandler_fault_of_found {s : State} (conn : Conn) {pkt : PacketData} {addr : Addr}
    {n : Int} (ok : Bool) (now : Time) {t : transfer} {f : Fault}
    (hfind : findTransfer s.inFlight pkt.BlockNum addr = some t)
    (hup : (Trim pkt.Data).upTo n = .error f) :
    dataHandler s conn pkt addr n ok now = .error f := by
  unfold dataHandler
  simp only [hfind, hup]

/-! ## The key invariant of the in-flight registry -/

theorem KeysOk_nil : KeysOk [] := by
  simp [KeysOk]

theorem KeysOk_filter (p : String × transfer → Bool) {m : Registry} (h : KeysOk m) :
    KeysOk (m.filter p) := by
  refine ⟨fun e he => h.1 e (List.mem_of_mem_filter he), ?_⟩
  exact List.Nodup.sublist (List.Sublist.map _ (List.filter_sublist m)) h.2

theorem KeysOk_delete {m : Registry} (h : KeysOk m) (k : String) : KeysOk (delete m k) :=
  KeysOk_filter _ h

theorem KeysOk_assign {m : Registry} (h : KeysOk m) (k : String) (v : transfer)
    (hv : v.filename = k) : KeysOk (assign m k v) := by
  have hd := KeysOk_delete h k
  refine ⟨?_, ?_⟩
  · intro e he
    rcases List.mem_append.1 he with he | he
    · exact hd.1 e he
    · simp at he; subst he; exact hv
  · rw [assign, List.map_append, List.nodup_append]
    refine ⟨hd.2, by simp, ?_⟩
    intro a ha hb
    simp at hb; subst hb
    exact not_mem_keys_delete m _ ha

theorem KeysOk_perm {m m' : Registry} (hp : m'.Perm m) (h : KeysOk m) : KeysOk m' := by
  refine ⟨fun e he => h.1 e (hp.subset he), ?_⟩
  exact (List.Perm.nodup_iff (hp.map Prod.fst)).2 h.2

theorem wrqHandler_KeysOk (s : State) (conn : Conn) (pkt : PacketRequest) (addr : Addr)
    (ok : Bool) (now : Time) (h : KeysOk s.inFlight) :
    KeysOk (wrqHandler s conn pkt addr ok now).1.inFlight := by
  unfold wrqHandler
  split
  · exact h
  · cases ok <;> exact KeysOk_assign h _ _ rfl

theorem rrqHandler_KeysOk (s : State) (conn : Conn) (pkt : PacketRequest) (addr : Addr)
    (ok : Bool) (now : Time) (h : KeysOk s.inFlight) :
    KeysOk (rrqHandler s conn pkt addr ok now).1.inFlight := by
  unfold rrqHandler
  split
  · exact h
  · cases ok <;> exact KeysOk_assign h _ _ rfl

theorem dataHandler_KeysOk (s : State) (conn : Conn) (pkt : PacketData) (addr : Addr) (n : Int)
    (ok : Bool) (now : Time) (s' : State) (out : List WriteTo) (h : KeysOk s.inFlight)
    (hs : dataHandler s conn pkt addr n ok now = .ok (s', out)) : KeysOk s'.inFlight := by
  cases hfind : findTransfer s.inFlight pkt.BlockNum addr with
  | none =>
    simp only [dataHandler, hfind] at hs
    cases hs; exact h
  | some t =>
    cases hup : (Trim pkt.Data).upTo n with
    | error f => rw [dataHandler_fault_of_found conn ok now hfind hup] at hs; cases hs
    | ok dn =>
      rw [dataHandler_of_found conn ok now hfind hup] at hs
      by_cases hn : n < (maxDataSize : Int)
      · simp only [hn, if_true] at hs
        cases hs
        exact KeysOk_delete h _
      · simp only [hn, if_false] at hs
        cases hs
        exact KeysOk_assign h _ _ (send_filename _ _ _ _)

theorem ackHandler_KeysOk (s : State) (conn : Conn) (pkt : PacketAck) (addr : Addr)
    (ok : Bool) (now : Time) (s' : State) (out : List WriteTo) (h : KeysOk s.inFlight)
    (hs : ackHandler s conn pkt addr ok now = .ok (s', out)) : KeysOk s'.inFlight := by
  unfold ackHandler at hs
  cases hfind : findTransfer s.inFlight pkt.BlockNum addr with
  | none =>
    simp only [hfind] at hs
    cases hs; exact h
  | some t =>
    simp only [hfind] at hs
    split at hs
    · split at hs
      · cases hs
        exact KeysOk_assign h _ _ (by cases ok <;> rfl)
      · cases hs
    · split at hs
      · cases hs
        exact KeysOk_delete h _
      · cases hs
        exact KeysOk_assign h _ _ (by cases ok <;> rfl)

/-! ## Durations -/

theorem wrap64_of_range {x : Int} (h₁ : -9223372036854775808 ≤ x)
    (h₂ : x ≤ 9223372036854775807) : wrap64 x = x := by
  unfold wrap64
  norm_num
  omega

/-- Below the largest duration, a comparison with the saturated difference
`t.Sub(u)` is a comparison with the difference itself. -/
theorem lt_Sub_iff {d : Int} (a u : Int) (h₁ : -9223372036854775808 ≤ d)
    (h₂ : d < 9223372036854775807) : d < Time.Sub a u ↔ d < a - u := by
  unfold Time.Sub maxDuration minDuration
  by_cases h3 : (a - u : Int) > 2 ^ 63 - 1
  · rw [if_pos h3]
    norm_num at h3 ⊢
    constructor <;> intro _ <;> omega
  · rw [if_neg h3]
    by_cases h4 : (a - u : Int) < -(2 ^ 63)
    · rw [if_pos h4]
      norm_num at h4 ⊢
      constructor <;> intro _ <;> omega
    · rw [if_neg h4]

/-! ## The supervisor pass -/

/-- The pass over entries that are stored under their own `filename`, have
distinct keys and are all still in the map: the expired ones are deleted, the
others stay, and the retransmissions are those of the unexpired entries with
`retry` set that are due. -/
theorem flushRange_spec (cfg : Config) (env : String → Tick) :
    ∀ (pending : List (String × transfer)) (m : Registry) (out : List WriteTo),
      (∀ e ∈ pending, e.2.filename = e.1) → (pending.map Prod.fst).Nodup →
      (∀ e ∈ pending, e.1 ∈ m.map Prod.fst) →
      flushRange cfg env pending m out =
        (m.filter (fun e => !(pending.any (fun p => p.1 == e.1 && expired cfg (env p.1) p.2))),
         out ++ (pending.filter (fun e => !expired cfg (env e.1) e.2 && e.2.retry &&
            due cfg (env e.1) e.2)).map (fun e => retransmission e.2)) := by
  intro pending
  induction pending with
  | nil => intro m out _ _ _; simp [flushRange]
  | cons e pending ih =>
    intro m out hk hn hm
    obtain ⟨k, t⟩ := e
    have hkt : t.filename = k := hk (k, t) (List.mem_cons_self _ _)
    have hk' : ∀ e ∈ pending, e.2.filename = e.1 := fun e he => hk e (List.mem_cons_of_mem _ he)
    simp only [List.map_cons, List.nodup_cons] at hn
    have hm' : ∀ e ∈ pending, e.1 ∈ m.map Prod.fst := fun e he => hm e (List.mem_cons_of_mem _ he)
    have hin : (lookup m k).isSome := (lookup_isSome_iff m k).2 (hm (k, t) (List.mem_cons_self _ _))
    have hin' : (lookup m k).isNone = false := by
      cases h : lookup m k <;> simp_all
    rw [flushRange]
    simp only [hin', Bool.false_eq_true, if_false]
    by_cases hex : expired cfg (env k) t = true
    · simp only [hex, if_true]
      rw [ih (delete m t.filename) out hk' hn.2]
      · simp only [delete, hkt, List.filter_filter, List.any_cons, hex, Bool.and_true]
        congr 1
        · apply List.filter_congr
          intro e _
          generalize (pending.any fun p => p.1 == e.1 && expired cfg (env p.1) p.2) = b
          have hb : (e.1 != k) = !(k == e.1) := by
            rw [bne]
            congr 1
            exact Bool.eq_iff_iff.2
              ⟨fun h => by rw [beq_iff_eq] at h ⊢; exact h.symm,
               fun h => by rw [beq_iff_eq] at h ⊢; exact h.symm⟩
          rw [hb]
          cases b <;> cases (k == e.1) <;> rfl
        · rw [List.filter_cons]
          simp only [hex, Bool.not_true, Bool.false_and, Bool.false_eq_true, if_false]
      · intro e he
        refine mem_keys_delete_of_ne (hm' e he) ?_
        rw [hkt]
        intro heq
        exact hn.1 (heq ▸ List.mem_map.2 ⟨e, he, rfl⟩)
    · have hex' : expired cfg (env k) t = false := by simpa using hex
      simp only [hex', Bool.false_eq_true, if_false]
      by_cases hr : t.retry = true
      · by_cases hd : due cfg (env k) t = true
        · simp only [hr, hd, if_true]
          rw [ih m _ hk' hn.2 hm']
          simp [List.any_cons, hex', List.filter_cons, hr, hd, transmit_snd]
        · have hd' : due cfg (env k) t = false := by simpa using hd
          simp only [hr, hd', if_true, Bool.false_eq_true, if_false]
          rw [ih m _ hk' hn.2 hm']
          simp [List.any_cons, hex', List.filter_cons, hr, hd']
      · have hr' : t.retry = false := by simpa using hr
        simp only [hr', Bool.false_eq_true, if_false]
        rw [ih m _ hk' hn.2 hm']
        simp [List.any_cons, hex', List.filter_cons, hr']

theorem any_expired_of_nodup (cfg : Config) (env : String → Tick) {m : Registry}
    (h : (m.map Prod.fst).Nodup) {e : String × transfer} (he : e ∈ m) :
    (m.any (fun p => p.1 == e.1 && expired cfg (env p.1) p.2)) = expired cfg (env e.1) e.2 := by
  apply Bool.eq_iff_iff.2
  rw [List.any_eq_true]
  constructor
  · rintro ⟨p, hp, hpe⟩
    rw [Bool.and_eq_true, beq_iff_eq] at hpe
    have h1 : lookup m e.1 = some p.2 := (lookup_eq_some_iff h _ _).2 (hpe.1 ▸ hp)
    have h2 : lookup m e.1 = some e.2 := (lookup_eq_some_iff h _ _).2 he
    have h3 : p.2 = e.2 := Option.some.inj (h1.symm.trans h2)
    rw [← h3, ← hpe.1]
    exact hpe.2
  · intro hx
    exact ⟨e, he, by rw [Bool.and_eq_true, beq_iff_eq]; exact ⟨rfl, hx⟩⟩

/-- One pass of the supervisor over a registry that satisfies the key
invariant: the registry is filtered by "not expired", the store is untouched,
and the packets are the retransmissions of the unexpired entries with `retry`
set that are due. -/
theorem flush_of_KeysOk (cfg : Config) (s : State) (env : String → Tick)
    (h : KeysOk s.inFlight) :
    (flush cfg s env).1 =
        { s with inFlight := s.inFlight.filter (fun e => !expired cfg (env e.1) e.2) } ∧
      (flush cfg s env).2 =
        (s.inFlight.filter (fun e => !expired cfg (env e.1) e.2 && e.2.retry &&
          due cfg (env e.1) e.2)).map (fun e => retransmission e.2) := by
  have hs := flushRange_spec cfg env s.inFlight s.inFlight [] h.1 h.2
    (fun e he => List.mem_map.2 ⟨e, he, rfl⟩)
  unfold flush
  rw [hs]
  refine ⟨?_, by simp⟩
  dsimp only
  congr 1
  apply List.filter_congr
  intro e he
  rw [any_expired_of_nodup cfg env h.2 he]

/-- Every reachable state satisfies the key invariant of the in-flight
registry. -/
theorem Reachable.keysOk {cfg : Config} {s : State} (h : Reachable cfg s) :
    KeysOk s.inFlight := by
  induction h with
  | init => exact KeysOk_nil
  | step _ hstep ih =>
    cases hstep with
    | wrq => exact wrqHandler_KeysOk _ _ _ _ _ _ ih
    | rrq => exact rrqHandler_KeysOk _ _ _ _ _ _ ih
    | data conn pkt addr n ok now _ out hs =>
      exact dataHandler_KeysOk _ conn pkt addr n ok now _ out ih hs
    | ack conn pkt addr ok now _ out hs =>
      exact ackHandler_KeysOk _ conn pkt addr ok now _ out ih hs
    | err => exact ih
    | sweep env =>
      rw [(flush_of_KeysOk cfg _ env ih).1]
      exact KeysOk_filter _ ih
    | order m₁ m₂ h₁ _ => exact KeysOk_perm h₁ ih

/-! ## The read exchange of a file of 64512 bytes or more -/

theorem ReadingAt_assign {s : State} {addr : Addr} {t t' : transfer} (st : Registry) (k : Nat)
    (hs : s.inFlight = [(addr.string, t)]) (hf : t'.filename = addr.string)
    (hb : t'.blockNum = k) (ha : t'.addr.string = addr.string) (hl : 64512 ≤ t'.data.length) :
    ReadingAt ⟨assign s.inFlight t'.filename t', st⟩ addr k :=
  ⟨t', by simp only [hs, hf, assign_single], hb, ha, hf, hl⟩

theorem ReadingAt_assign_nil {addr : Addr} {t' : transfer} (st : Registry) (k : Nat)
    (hf : t'.filename = addr.string) (hb : t'.blockNum = k)
    (ha : t'.addr.string = addr.string) (hl : 64512 ≤ t'.data.length) :
    ReadingAt ⟨assign [] t'.filename t', st⟩ addr k :=
  ⟨t', by simp [assign, delete, hf], hb, ha, hf, hl⟩

theorem ackHandler_ReadingAt {s : State} {addr : Addr} {k : Nat} (conn : Conn) (ok : Bool)
    (now : Time) (h : ReadingAt s addr k) (hk : k ≤ 126) :
    ∃ s' w, ackHandler s conn ⟨k⟩ addr ok now = .ok (s', [w]) ∧ ReadingAt s' addr (k + 1) := by
  obtain ⟨t, hs, hb, ha, hf, hl⟩ := h
  have hfind : findTransfer s.inFlight k addr = some t := by
    rw [hs]; exact findTransfer_single hb ha
  have h1 : u16 (t.blockNum + 1) = k + 1 := by rw [hb, u16]; omega
  have h2 : u16 ((k + 1) * maxDataSize) = (k + 1) * 512 := by rw [u16, maxDataSize]; omega
  have h3 : u16 (k * maxDataSize) = k * 512 := by rw [u16, maxDataSize]; omega
  unfold ackHandler
  simp only [hfind, h1, h2, h3]
  by_cases hc : t.data.length ≥ (k + 1) * 512
  · have hle : k * 512 ≤ (k + 1) * 512 := by omega
    simp only [hc, hle, if_true]
    refine ⟨_, _, rfl, ?_⟩
    exact ReadingAt_assign _ _ hs (by rw [send_filename]; exact hf) (by rw [send_fst])
      (by rw [send_fst]; exact ha) (by rw [send_fst]; exact hl)
  · have hlt : ¬ t.data.length < k * 512 := by omega
    simp only [hc, hlt, if_false]
    refine ⟨_, _, rfl, ?_⟩
    exact ReadingAt_assign _ _ hs (by rw [send_filename]; exact hf) (by rw [send_fst])
      (by rw [send_fst]; exact ha) (by rw [send_fst]; exact hl)

theorem ackHandler_ReadingAt_127 {s : State} {addr : Addr} (conn : Conn) (ok : Bool)
    (now : Time) (h : ReadingAt s addr 127) :
    ackHandler s conn ⟨127⟩ addr ok now = .error .sliceBounds := by
  obtain ⟨t, hs, hb, ha, _, _⟩ := h
  have hfind : findTransfer s.inFlight 127 addr = some t := by
    rw [hs]; exact findTransfer_single hb ha
  unfold ackHandler
  simp only [hfind, hb]
  simp [u16, maxDataSize]

theorem readAcks_ReadingAt (conn : Conn) (addr : Addr) (env : Nat → Bool × Time) :
    ∀ (j k fuel : Nat) (s : State) (out : List WriteTo), k + j = 127 → j + 1 ≤ fuel →
      ReadingAt s addr k →
      ∃ out', readAcks conn addr env fuel k s out = (out', .error .sliceBounds) ∧
        out'.length = out.length + j := by
  intro j
  induction j with
  | zero =>
    intro k fuel s out hk hfuel h
    obtain ⟨fuel, rfl⟩ : ∃ f, fuel = f + 1 := ⟨fuel - 1, by omega⟩
    have hk' : k = 127 := by omega
    subst hk'
    have hin : (lookup s.inFlight addr.string).isNone = false := by
      obtain ⟨t, hs, _⟩ := h
      simp [hs, lookup]
    refine ⟨out, ?_, rfl⟩
    rw [readAcks]
    simp only [hin, ackHandler_ReadingAt_127 conn _ _ h]
    rfl
  | succ j ih =>
    intro k fuel s out hk hfuel h
    obtain ⟨fuel, rfl⟩ : ∃ f, fuel = f + 1 := ⟨fuel - 1, by omega⟩
    have hin : (lookup s.inFlight addr.string).isNone = false := by
      obtain ⟨t, hs, _⟩ := h
      simp [hs, lookup]
    obtain ⟨s', w, hack, h'⟩ := ackHandler_ReadingAt conn (env k).1 (env k).2 h (by omega)
    obtain ⟨out', hrun, hlen⟩ := ih (k + 1) fuel s' (out ++ [w]) (by omega) (by omega) h'
    refine ⟨out', ?_, ?_⟩
    · rw [readAcks]
      simp only [hin, hack]
      exact hrun
    · rw [hlen, List.length_append]; simp; omega

/-! ## Write reassembly (C1) -/

/-- C1: on a fresh server, a write request for "f" followed by the DATA
datagram of block 1 with the two payload bytes 0, 7 is acknowledged with
Ack(1) and completes the file, but the payload stored under "f" is 7, 0: the
leading zero byte is trimmed away and a byte of the zeroed receive buffer is
taken in its place. -/
theorem write_leading_zero_lost :
    ∃ s₁ o₁ s₂ o₂,
      newPacket {} 7 clientA (recvBuf wrqDatagramF) 10 true 100 = .ok (s₁, o₁) ∧
      newPacket s₁ 7 clientA (recvBuf [0, 3, 0, 1, 0, 7]) 6 true 200 = .ok (s₂, o₂) ∧
      o₂ = [⟨7, (Packet.ack ⟨1⟩).Serialize, clientA⟩] ∧
      (lookup s₂.store "f").map transfer.data = some [7, 0] := by
  refine ⟨_, _, _, _, rfl, rfl, ?_, ?_⟩ <;> decide

/-! ## Read packet count (C2) -/

/-- C2: with no other session in flight, the read exchange of a stored file of
64512 bytes or more never ends with the removal of the session: after 127
`WriteTo` calls (DATA blocks 1 to 127) the ACK of block 127 makes `ackHandler`
panic on a slice bound, because `tsize = 128 * 512` wraps to 0 in `uint16`. -/
theorem readExchange_panics_at_block_127 (store : Registry) (conn : Conn) (pkt : PacketRequest)
    (addr : Addr) (env : Nat → Bool × Time) (fuel : Nat) (file : transfer)
    (hfile : lookup store pkt.Filename = some file) (hsize : 64512 ≤ file.data.length)
    (hfuel : 127 ≤ fuel) :
    ∃ out, readExchange ⟨[], store⟩ conn pkt addr env fuel = (out, .error .sliceBounds) ∧
      out.length = 127 := by
  unfold readExchange
  have hr : ∃ s₁ w, rrqHandler ⟨[], store⟩ conn pkt addr (env 0).1 (env 0).2 = (s₁, [w]) ∧
      ReadingAt s₁ addr 1 := by
    unfold rrqHandler
    simp only [hfile]
    refine ⟨_, _, rfl, ?_⟩
    exact ReadingAt_assign_nil _ _ (by rw [send_filename]) (by rw [send_fst])
      (by rw [send_fst]) (by rw [send_fst]; exact hsize)
  obtain ⟨s₁, w, hrrq, h₁⟩ := hr
  obtain ⟨out, hrun, hlen⟩ := readAcks_ReadingAt conn addr env 126 1 fuel s₁ [w] rfl (by omega) h₁
  exact ⟨out, by rw [hrrq]; exact hrun, by rw [hlen]; rfl⟩

theorem readExchange_panics_at_block_127_witness :
    ∃ out, readExchange ⟨[], [("f", bigFileF)]⟩ 7 ⟨OpRRQ, "f", "octet"⟩ clientB
        (fun _ => (true, 200)) 200 = (out, .error .sliceBounds) ∧ out.length = 127 :=
  readExchange_panics_at_block_127 [("f", bigFileF)] 7 ⟨OpRRQ, "f", "octet"⟩ clientB
    (fun _ => (true, 200)) 200 bigFileF rfl
    (show 64512 ≤ (List.replicate 65536 1).length by rw [List.length_replicate]; decide)
    (by decide)

/-! ## The completed store (C3) -/

/-- C3: endpoint 10.0.0.1:4000 writes the one-byte file named "10.0.0.1:4000",
then requests to read it, then sends a DATA packet of block 1 instead of an
ACK. `dataHandler` matches the read session, whose key is the endpoint string,
and stores it: the payload under "10.0.0.1:4000" in the completed store
changes from 5 to 5, 9. -/
theorem store_overwritten_by_data_on_read_session :
    ∃ s₁ o₁ s₂ o₂ s₃ o₃ s₄ o₄,
      newPacket {} 7 clientA (recvBuf wrqDatagramA) 22 true 100 = .ok (s₁, o₁) ∧
      newPacket s₁ 7 clientA (recvBuf [0, 3, 0, 1, 5]) 5 true 200 = .ok (s₂, o₂) ∧
      newPacket s₂ 7 clientA (recvBuf rrqDatagramA) 22 true 300 = .ok (s₃, o₃) ∧
      newPacket s₃ 7 clientA (recvBuf [0, 3, 0, 1, 9]) 5 true 400 = .ok (s₄, o₄) ∧
      (lookup s₂.store "10.0.0.1:4000").map transfer.data = some [5] ∧
      (lookup s₄.store "10.0.0.1:4000").map transfer.data = some [5, 9] := by
  refine ⟨_, _, _, _, _, _, _, _, rfl, rfl, rfl, rfl, ?_, ?_⟩ <;> decide

/-! ## Error replies (C4, C5, C7) and stale acknowledgments (C6) -/

/-- C4: a write request for a filename that is a key of the completed store
makes `wrqHandler` call `WriteTo` once, with the Error packet of code 6 and
message "File already exists." addressed to the requester, and leaves both
registries as they were. -/
theorem wrqHandler_file_exists (s : State) (conn : Conn) (pkt : PacketRequest) (addr : Addr)
    (ok : Bool) (now : Time) (h : pkt.Filename ∈ s.store.map Prod.fst) :
    wrqHandler s conn pkt addr ok now =
      (s, [⟨conn, (Packet.error ⟨6, "File already exists."⟩).Serialize, addr⟩]) := by
  have h' := (lookup_isSome_iff s.store pkt.Filename).2 h
  simp [wrqHandler, h', sendError, errorCodes]

theorem wrqHandler_file_exists_witness :
    wrqHandler ⟨[], [("f", fileF)]⟩ 7 ⟨OpWRQ, "f", "octet"⟩ clientB true 200 =
      (⟨[], [("f", fileF)]⟩,
        [⟨7, (Packet.error ⟨6, "File already exists."⟩).Serialize, clientB⟩]) :=
  wrqHandler_file_exists ⟨[], [("f", fileF)]⟩ 7 ⟨OpWRQ, "f", "octet"⟩ clientB true 200
    (by decide)

/-- C5: a read request for a filename that is not a key of the completed store
makes `rrqHandler` call `WriteTo` once, with the Error packet of code 1 and
message "File not found." addressed to the requester, and leaves both
registries as they were. -/
theorem rrqHandler_file_not_found (s : State) (conn : Conn) (pkt : PacketRequest) (addr : Addr)
    (ok : Bool) (now : Time) (h : pkt.Filename ∉ s.store.map Prod.fst) :
    rrqHandler s conn pkt addr ok now =
      (s, [⟨conn, (Packet.error ⟨1, "File not found."⟩).Serialize, addr⟩]) := by
  have h' := (lookup_eq_none_iff s.store pkt.Filename).2 h
  simp [rrqHandler, h', sendError, errorCodes]

theorem rrqHandler_file_not_found_witness :
    rrqHandler ⟨[], [("f", fileF)]⟩ 7 ⟨OpRRQ, "g", "octet"⟩ clientB true 200 =
      (⟨[], [("f", fileF)]⟩,
        [⟨7, (Packet.error ⟨1, "File not found."⟩).Serialize, clientB⟩]) :=
  rrqHandler_file_not_found ⟨[], [("f", fileF)]⟩ 7 ⟨OpRRQ, "g", "octet"⟩ clientB true 200
    (by decide)

/-- C6: an ACK whose block number and endpoint string are matched by no
in-flight transfer makes `ackHandler` return without a `WriteTo` and with
both registries as they were. -/
theorem ackHandler_stale_ignored (s : State) (conn : Conn) (pkt : PacketAck) (addr : Addr)
    (ok : Bool) (now : Time)
    (h : ∀ e ∈ s.inFlight, ¬ (e.2.blockNum = pkt.BlockNum ∧ addr.string = e.2.addr.string)) :
    ackHandler s conn pkt addr ok now = .ok (s, []) := by
  have h' := (findTransfer_eq_none_iff s.inFlight pkt.BlockNum addr).2 h
  simp [ackHandler, h']

theorem ackHandler_stale_ignored_witness :
    ackHandler ⟨[("g", sessionG)], [("f", fileF)]⟩ 7 ⟨0⟩ clientA true 200 =
      .ok (⟨[("g", sessionG)], [("f", fileF)]⟩, []) :=
  ackHandler_stale_ignored ⟨[("g", sessionG)], [("f", fileF)]⟩ 7 ⟨0⟩ clientA true 200
    (by decide)

/-- C7: a DATA packet whose block number and endpoint string are matched by no
in-flight transfer makes `dataHandler` call `WriteTo` once, with the Error
packet of code 5 and message "Unknown transfer ID." addressed to the sender,
and leaves both registries as they were. -/
theorem dataHandler_unknown_transfer (s : State) (conn : Conn) (pkt : PacketData) (addr : Addr)
    (n : Int) (ok : Bool) (now : Time)
    (h : ∀ e ∈ s.inFlight, ¬ (e.2.blockNum = pkt.BlockNum ∧ addr.string = e.2.addr.string)) :
    dataHandler s conn pkt addr n ok now =
      .ok (s, [⟨conn, (Packet.error ⟨5, "Unknown transfer ID."⟩).Serialize, addr⟩]) := by
  have h' := (findTransfer_eq_none_iff s.inFlight pkt.BlockNum addr).2 h
  simp [dataHandler, h', sendError, errorCodes]

theorem dataHandler_unknown_transfer_witness :
    dataHandler ⟨[("g", sessionG)], [("f", fileF)]⟩ 7 ⟨1, ⟨[9, 9], []⟩⟩ clientB 2 true 200 =
      .ok (⟨[("g", sessionG)], [("f", fileF)]⟩,
        [⟨7, (Packet.error ⟨5, "Unknown transfer ID."⟩).Serialize, clientB⟩]) :=
  dataHandler_unknown_transfer ⟨[("g", sessionG)], [("f", fileF)]⟩ 7 ⟨1, ⟨[9, 9], []⟩⟩ clientB 2
    true 200 (by decide)

/-! ## The short block (C8) -/

/-- C8, the counterexample: a write session waiting for block 65535 receives
that block with 512 bytes; it stays in flight, and its block number afterwards
is 0, not 65536. -/
theorem dataHandler_blockNum_wraps :
    ∃ s' out,
      dataHandler ⟨[("g", lastBlockG)], []⟩ 7 ⟨65535, ⟨List.replicate 512 1, []⟩⟩ clientA 512
        true 200 = .ok (s', out) ∧
      (lookup s'.inFlight "g").map transfer.blockNum = some 0 ∧
      (lookup s'.inFlight "g").map transfer.blockNum ≠ some (lastBlockG.blockNum + 1) := by
  refine ⟨_, _, rfl, ?_, ?_⟩ <;> decide

/-- C8, amended: for a DATA packet that matches an in-flight transfer `t`, with
a declared length `n`, not negative (in particular in 0..512), that the
payload slice can still supply after `bytes.Trim` (`n` at most the capacity of
the trimmed slice), `dataHandler` replies with one Ack
carrying the received block number, sent to the endpoint of `t`. The key
`t.filename` is in the completed store and absent from the in-flight registry
if and only if `n < 512`. When `n = 512` the transfer stays in flight under
`t.filename`, with its block number increased by one modulo 65536 and its
buffer extended by 512 bytes, and the completed store keeps its keys and,
under each key, every field of its entry and the length of its payload.
Nothing is said of the values of the payload bytes of stored files: `append`
may write them through a backing array that a stored file shares with `t`. -/
theorem dataHandler_short_block_iff (s : State) (conn : Conn) (pkt : PacketData) (addr : Addr)
    (n : Int) (ok : Bool) (now : Time) (t : transfer)
    (hfind : findTransfer s.inFlight pkt.BlockNum addr = some t)
    (hn0 : 0 ≤ n) (hcap : n ≤ ((Trim pkt.Data).cap : Int)) :
    ∃ s', dataHandler s conn pkt addr n ok now =
        .ok (s', [⟨t.conn, (Packet.ack ⟨pkt.BlockNum⟩).Serialize, t.addr⟩]) ∧
      ((t.filename ∈ s'.store.map Prod.fst ∧ t.filename ∉ s'.inFlight.map Prod.fst) ↔ n < 512) ∧
      (n = 512 →
        s'.store.map (fun e => (e.1, e.2.data.length, { e.2 with data := [] })) =
          s.store.map (fun e => (e.1, e.2.data.length, { e.2 with data := [] })) ∧
        ∃ t' chunk, lookup s'.inFlight t.filename = some t' ∧
          t'.blockNum = (t.blockNum + 1) % 65536 ∧
          chunk.length = 512 ∧ t'.data = t.data ++ chunk) := by
  have hup : (Trim pkt.Data).upTo n =
      .ok (((Trim pkt.Data).elems ++ (Trim pkt.Data).spare).take n.toNat) := by
    simp [Slice.upTo, hn0, hcap]
  refine ⟨_, dataHandler_of_found conn ok now hfind hup, ?_, ?_⟩
  · by_cases h : n < (maxDataSize : Int)
    · have h' : n < 512 := h
      simp only [h, if_true, h', iff_true]
      exact ⟨mem_keys_assign _ _ _, not_mem_keys_delete _ _⟩
    · have h' : ¬ n < 512 := h
      simp only [h, if_false, h', iff_false, not_and, not_not]
      intro _
      exact mem_keys_assign _ _ _
  · intro h512
    have h : ¬ n < (maxDataSize : Int) := by simp [maxDataSize, h512]
    rw [if_neg h]
    refine ⟨rfl, _, ((Trim pkt.Data).elems ++ (Trim pkt.Data).spare).take n.toNat,
      lookup_assign_self _ _ _, ?_, ?_, ?_⟩
    · rw [send_fst]; rfl
    · rw [List.length_take, List.length_append]
      have : (n.toNat : Int) = n := Int.toNat_of_nonneg hn0
      simp only [Slice.cap] at hcap
      omega
    · rw [send_fst]

theorem dataHandler_short_block_iff_witness :
    ∃ s', dataHandler ⟨[("g", sessionG)], [("f", fileF)]⟩ 7 ⟨1, ⟨List.replicate 512 1, []⟩⟩
          clientA 512 true 200 =
        .ok (s', [⟨sessionG.conn, (Packet.ack ⟨1⟩).Serialize, sessionG.addr⟩]) ∧
      ((sessionG.filename ∈ s'.store.map Prod.fst ∧
          sessionG.filename ∉ s'.inFlight.map Prod.fst) ↔ (512 : Int) < 512) ∧
      ((512 : Int) = 512 →
        s'.store.map (fun e => (e.1, e.2.data.length, { e.2 with data := [] })) =
          [("f", fileF)].map (fun e => (e.1, e.2.data.length, { e.2 with data := [] })) ∧
        ∃ t' chunk, lookup s'.inFlight sessionG.filename = some t' ∧
          t'.blockNum = (sessionG.blockNum + 1) % 65536 ∧
          chunk.length = 512 ∧ t'.data = sessionG.data ++ chunk) :=
  dataHandler_short_block_iff ⟨[("g", sessionG)], [("f", fileF)]⟩ 7
    ⟨1, ⟨List.replicate 512 1, []⟩⟩ clientA 512 true 200 sessionG (by decide) (by decide)
    (by decide)

/-! ## The supervisor: retransmission (C9) and expiry (C10) -/

/-- C9: a write session for "f" is opened at second 1000; the Ack(1) for its
first full block fails to send, so the entry is registered with retry set and
lastOp at second 1000. A pass of the supervisor at second 1010 (retransmit
interval 5 s, maximum timeout 25 s) retransmits Ack(1) successfully, and
afterwards the entry in the in-flight registry still has retry set and lastOp
at second 1000: what `transmit` did to the loop copy is not written back. -/
theorem flush_drops_transmit_result :
    ∃ s₁ o₁ s₂ o₂,
      newPacket {} 7 clientA (recvBuf wrqDatagramF) 10 true (1000 * Second) = .ok (s₁, o₁) ∧
      newPacket s₁ 7 clientA (recvBuf ([0, 3, 0, 1] ++ List.replicate 512 1)) 516 false
        (1001 * Second) = .ok (s₂, o₂) ∧
      (lookup s₂.inFlight "f").map (fun t => (t.retry, t.lastOp)) = some (true, 1000 * Second) ∧
      (flush {} s₂ (steadyClock (1010 * Second))).2 =
        [⟨7, (Packet.ack ⟨1⟩).Serialize, clientA⟩] ∧
      (lookup (flush {} s₂ (steadyClock (1010 * Second))).1.inFlight "f").map
        (fun t => (t.retry, t.lastOp)) = some (true, 1000 * Second) := by
  refine ⟨_, _, _, _, rfl, rfl, ?_, ?_, ?_⟩ <;> decide

/-- C10, the counterexample: with Max-timeout 9223372037 the product
`time.Second * 9223372037` overflows `int64` to a negative duration. In the
reachable state `twoSessions` the pass at second 31 removes both sessions: the
session for "g" was last active at second 30, so its elapsed time of one
second does not exceed the configured maximum timeout, yet it is no longer in
the registry. -/
theorem flush_expires_fresh_session_when_timeout_overflows :
    Reachable ⟨5, 9223372037⟩ twoSessions ∧
      (∃ t, lookup twoSessions.inFlight "g" = some t ∧
        ¬ Second * (⟨5, 9223372037⟩ : Config).maxTimeout <
          (steadyClock (31 * Second) "g").now1 - t.lastOp) ∧
      lookup (flush ⟨5, 9223372037⟩ twoSessions (steadyClock (31 * Second))).1.inFlight "g" =
        none ∧
      (flush ⟨5, 9223372037⟩ twoSessions (steadyClock (31 * Second))).1.inFlight = [] :=
  ⟨Reachable.step (Reachable.step Reachable.init (Step.wrq _ 7 wrqF clientA true 0))
      (Step.wrq _ 7 wrqG clientB true (30 * Second)),
    ⟨_, rfl, by decide⟩, by decide, by decide⟩

/-- For a flag within ±9223372036 s the expiry test of `flush` compares the
elapsed time with the flag times one second. -/
theorem expired_eq_of_range (cfg : Config) (hlo : -9223372036 ≤ cfg.maxTimeout)
    (hhi : cfg.maxTimeout ≤ 9223372036) (k : Tick) (t : transfer) :
    expired cfg k t = decide (Second * cfg.maxTimeout < k.now1 - t.lastOp) := by
  unfold expired
  rw [wrap64_of_range (by unfold Second; omega) (by unfold Second; omega)]
  exact decide_eq_decide.2 (lt_Sub_iff _ _ (by unfold Second; omega) (by unfold Second; omega))

/-- C10, amended: let the flag Max-timeout lie within ±9223372036 seconds, so
that `time.Second * Max-timeout` does not overflow `int64`. Then in every
reachable state and for every clock, one pass of the supervisor removes from
the in-flight registry every transfer whose elapsed time since `lastOp`,
read at its expiry test, exceeds Max-timeout seconds, whatever its retry
flag; it keeps every other transfer, unchanged, and adds none; and the
packets it sends are exactly the retransmissions of the transfers that are not
so expired, have `retry` set and pass the retransmit test of the code, so none
is sent for an expired transfer. -/
theorem flush_expires_exactly (cfg : Config) (s : State) (env : String → Tick)
    (h : Reachable cfg s)
    (hlo : -9223372036 ≤ cfg.maxTimeout) (hhi : cfg.maxTimeout ≤ 9223372036) :
    (∀ k t, lookup s.inFlight k = some t →
        Second * cfg.maxTimeout < (env k).now1 - t.lastOp →
        lookup (flush cfg s env).1.inFlight k = none) ∧
      (∀ k t, lookup s.inFlight k = some t →
        ¬ Second * cfg.maxTimeout < (env k).now1 - t.lastOp →
        lookup (flush cfg s env).1.inFlight k = some t) ∧
      (∀ k, lookup s.inFlight k = none → lookup (flush cfg s env).1.inFlight k = none) ∧
      (flush cfg s env).2 =
        (s.inFlight.filter (fun e =>
          !decide (Second * cfg.maxTimeout < (env e.1).now1 - e.2.lastOp) && e.2.retry &&
            decide (wrap64 (Second * cfg.rexmtInterval) <
              Time.Sub (env e.1).now2 e.2.lastOp))).map
          (fun e => ⟨e.2.conn, e.2.sendData, e.2.addr⟩) := by
  have hk := h.keysOk
  obtain ⟨h1, h2⟩ := flush_of_KeysOk cfg s env hk
  have hex : ∀ (k : Tick) (t : transfer),
      expired cfg k t = decide (Second * cfg.maxTimeout < k.now1 - t.lastOp) :=
    expired_eq_of_range cfg hlo hhi
  refine ⟨?_, ?_, ?_, ?_⟩
  · intro k t hl hlt
    rw [h1]
    cases hf : lookup (s.inFlight.filter (fun e => !expired cfg (env e.1) e.2)) k with
    | none => rfl
    | some t' =>
      have := (lookup_filter hk.2 _ k t').1 hf
      rw [hl] at this
      obtain ⟨ht, hp⟩ := this
      cases ht
      rw [hex, decide_eq_true hlt] at hp
      cases hp
  · intro k t hl hlt
    rw [h1]
    refine (lookup_filter hk.2 _ k t).2 ⟨hl, ?_⟩
    rw [hex, decide_eq_false hlt]
    rfl
  · intro k hl
    rw [h1]
    cases hf : lookup (s.inFlight.filter (fun e => !expired cfg (env e.1) e.2)) k with
    | none => rfl
    | some t' =>
      have := (lookup_filter hk.2 _ k t').1 hf
      rw [hl] at this
      cases this.1
  · rw [h2]
    congr 1
    apply List.filter_congr
    intro e _
    rw [hex]
    rfl

theorem flush_expires_exactly_witness :
    Reachable {} twoSessions ∧ -9223372036 ≤ ({} : Config).maxTimeout ∧
      ({} : Config).maxTimeout ≤ 9223372036 ∧
      ((∀ k t, lookup twoSessions.inFlight k = some t →
          Second * ({} : Config).maxTimeout < (steadyClock (31 * Second) k).now1 - t.lastOp →
          lookup (flush {} twoSessions (steadyClock (31 * Second))).1.inFlight k = none) ∧
        (∀ k t, lookup twoSessions.inFlight k = some t →
          ¬ Second * ({} : Config).maxTimeout < (steadyClock (31 * Second) k).now1 - t.lastOp →
          lookup (flush {} twoSessions (steadyClock (31 * Second))).1.inFlight k = some t) ∧
        (∀ k, lookup twoSessions.inFlight k = none →
          lookup (flush {} twoSessions (steadyClock (31 * Second))).1.inFlight k = none) ∧
        (flush {} twoSessions (steadyClock (31 * Second))).2 =
          (twoSessions.inFlight.filter (fun e =>
            !decide (Second * ({} : Config).maxTimeout <
                (steadyClock (31 * Second) e.1).now1 - e.2.lastOp) && e.2.retry &&
              decide (wrap64 (Second * ({} : Config).rexmtInterval) <
                Time.Sub (steadyClock (31 * Second) e.1).now2 e.2.lastOp))).map
            (fun e => ⟨e.2.conn, e.2.sendData, e.2.addr⟩)) :=
  have hr : Reachable {} twoSessions :=
    Reachable.step (Reachable.step Reachable.init (Step.wrq _ 7 wrqF clientA true 0))
      (Step.wrq _ 7 wrqG clientB true (30 * Second))
  ⟨hr, by decide, by decide,
    flush_expires_exactly {} twoSessions (steadyClock (31 * Second)) hr (by decide) (by decide)⟩

/-! ## More on the registries -/

theorem lookup_delete_of_ne (m : Registry) {k k' : String} (h : k' ≠ k) :
    lookup (delete m k) k' = lookup m k' := by
  induction m with
  | nil => rfl
  | cons e m ih =>
    simp only [lookup, delete] at ih ⊢
    by_cases he : e.1 = k
    · have h1 : (e.1 != k) = false := by rw [bne, beq_iff_eq.2 he]; rfl
      have h2 : (e.1 == k') = false := by
        rw [beq_eq_false_iff_ne]; intro h3; exact h (h3.symm.trans he)
      rw [List.filter_cons, h1, List.find?_cons, h2]
      exact ih
    · have h1 : (e.1 != k) = true := by
        rw [bne, Bool.not_eq_true', beq_eq_false_iff_ne]; exact he
      rw [List.filter_cons, h1, if_pos rfl, List.find?_cons, List.find?_cons]
      cases e.1 == k'
      · exact ih
      · rfl

theorem lookup_assign_of_ne (m : Registry) {k k' : String} (v : transfer) (h : k' ≠ k) :
    lookup (assign m k v) k' = lookup m k' := by
  have h2 : (k == k') = false := by
    rw [beq_eq_false_iff_ne]; exact fun h3 => h h3.symm
  have hd := lookup_delete_of_ne m h
  simp only [lookup, assign, List.find?_append] at hd ⊢
  rw [← hd]
  cases (List.find? (fun e => e.1 == k') (delete m k)) with
  | some x => rfl
  | none => simp [List.find?_cons, h2]

/-- C19: a write request for a filename that is not a key of the completed
store but is a key of the in-flight registry replaces that session. For every
such state and every requesting endpoint, after `wrqHandler` the entry under
the filename has blockNum 1, an empty buffer and the requester as endpoint
(whatever the old entry had accumulated), the only `WriteTo` is Ack(0) to the
requester, every other key of the in-flight registry looks up as before, and
the completed store is unchanged. -/
theorem wrqHandler_replaces_session (s : State) (conn : Conn) (pkt : PacketRequest)
    (addr : Addr) (ok : Bool) (now : Time)
    (hstore : pkt.Filename ∉ s.store.map Prod.fst)
    (hin : pkt.Filename ∈ s.inFlight.map Prod.fst) :
    (∃ t, lookup (wrqHandler s conn pkt addr ok now).1.inFlight pkt.Filename = some t ∧
        t.blockNum = 1 ∧ t.data = [] ∧ t.addr = addr ∧ t.filename = pkt.Filename) ∧
      (wrqHandler s conn pkt addr ok now).2 = [⟨conn, (Packet.ack ⟨0⟩).Serialize, addr⟩] ∧
      (∀ k, k ≠ pkt.Filename →
        lookup (wrqHandler s conn pkt addr ok now).1.inFlight k = lookup s.inFlight k) ∧
      (wrqHandler s conn pkt addr ok now).1.store = s.store := by
  have h' : (lookup s.store pkt.Filename).isSome = false := by
    have := (lookup_eq_none_iff s.store pkt.Filename).2 hstore
    rw [this]; rfl
  have _ := hin
  unfold wrqHandler
  simp only [h', Bool.false_eq_true, if_false]
  cases ok
  · exact ⟨⟨_, lookup_assign_self _ _ _, rfl, rfl, rfl, rfl⟩, rfl,
      fun k hk => lookup_assign_of_ne _ _ hk, trivial⟩
  · exact ⟨⟨_, lookup_assign_self _ _ _, rfl, rfl, rfl, rfl⟩, rfl,
      fun k hk => lookup_assign_of_ne _ _ hk, trivial⟩

theorem wrqHandler_replaces_session_witness :
    (∃ t, lookup (wrqHandler ⟨[("g", sessionG)], [("f", fileF)]⟩ 7 wrqG clientB true 200).1.inFlight
          wrqG.Filename = some t ∧
        t.blockNum = 1 ∧ t.data = [] ∧ t.addr = clientB ∧ t.filename = wrqG.Filename) ∧
      (wrqHandler ⟨[("g", sessionG)], [("f", fileF)]⟩ 7 wrqG clientB true 200).2 =
        [⟨7, (Packet.ack ⟨0⟩).Serialize, clientB⟩] ∧
      (∀ k, k ≠ wrqG.Filename →
        lookup (wrqHandler ⟨[("g", sessionG)], [("f", fileF)]⟩ 7 wrqG clientB true 200).1.inFlight k =
          lookup [("g", sessionG)] k) ∧
      (wrqHandler ⟨[("g", sessionG)], [("f", fileF)]⟩ 7 wrqG clientB true 200).1.store =
        [("f", fileF)] :=
  wrqHandler_replaces_session ⟨[("g", sessionG)], [("f", fileF)]⟩ 7 wrqG clientB true 200
    (by decide) (by decide)
/-! ## The key invariant of both registries (C17) -/

theorem NamedByKey_assign {m : Registry} (h : NamedByKey m) (k : String) (v : transfer)
    (hv : v.filename = k) : NamedByKey (assign m k v) := by
  intro e he
  rcases List.mem_append.1 he with he | he
  · exact h e (List.mem_of_mem_filter he)
  · simp at he; subst he; exact hv

theorem dataHandler_store_NamedByKey (s : State) (conn : Conn) (pkt : PacketData) (addr : Addr)
    (n : Int) (ok : Bool) (now : Time) (s' : State) (out : List WriteTo)
    (h : NamedByKey s.store)
    (hs : dataHandler s conn pkt addr n ok now = .ok (s', out)) : NamedByKey s'.store := by
  cases hfind : findTransfer s.inFlight pkt.BlockNum addr with
  | none =>
    simp only [dataHandler, hfind] at hs
    cases hs; exact h
  | some t =>
    cases hup : (Trim pkt.Data).upTo n with
    | error f => rw [dataHandler_fault_of_found conn ok now hfind hup] at hs; cases hs
    | ok dn =>
      rw [dataHandler_of_found conn ok now hfind hup] at hs
      by_cases hn : n < (maxDataSize : Int)
      · simp only [hn, if_true] at hs
        cases hs
        exact NamedByKey_assign h _ _ (send_filename _ _ _ _)
      · simp only [hn, if_false] at hs
        cases hs
        exact h

theorem ackHandler_store (s : State) (conn : Conn) (pkt : PacketAck) (addr : Addr)
    (ok : Bool) (now : Time) (s' : State) (out : List WriteTo)
    (hs : ackHandler s conn pkt addr ok now = .ok (s', out)) : s'.store = s.store := by
  unfold ackHandler at hs
  cases hfind : findTransfer s.inFlight pkt.BlockNum addr with
  | none =>
    simp only [hfind] at hs
    cases hs; rfl
  | some t =>
    simp only [hfind] at hs
    split at hs
    · split at hs
      · cases hs; rfl
      · cases hs
    · split at hs
      · cases hs; rfl
      · cases hs; rfl

theorem wrqHandler_store (s : State) (conn : Conn) (pkt : PacketRequest) (addr : Addr)
    (ok : Bool) (now : Time) : (wrqHandler s conn pkt addr ok now).1.store = s.store := by
  unfold wrqHandler
  split
  · rfl
  · cases ok <;> rfl

theorem rrqHandler_store (s : State) (conn : Conn) (pkt : PacketRequest) (addr : Addr)
    (ok : Bool) (now : Time) : (rrqHandler s conn pkt addr ok now).1.store = s.store := by
  unfold rrqHandler
  split
  · rfl
  · cases ok <;> rfl

theorem flush_store (cfg : Config) (s : State) (env : String → Tick) :
    (flush cfg s env).1.store = s.store := rfl

/-- Every reachable state keeps each completed file under its own filename. -/
theorem Reachable.store_named {cfg : Config} {s : State} (h : Reachable cfg s) :
    NamedByKey s.store := by
  induction h with
  | init => intro e he; cases he
  | step _ hstep ih =>
    cases hstep with
    | wrq => rw [wrqHandler_store]; exact ih
    | rrq => rw [rrqHandler_store]; exact ih
    | data conn pkt addr n ok now _ out hs =>
      exact dataHandler_store_NamedByKey _ conn pkt addr n ok now _ out ih hs
    | ack conn pkt addr ok now _ out hs =>
      rw [ackHandler_store _ conn pkt addr ok now _ out hs]; exact ih
    | err => exact ih
    | sweep env => exact ih
    | order m₁ m₂ _ h₂ => exact fun e he => ih e (h₂.subset he)

/-- C17: in every state reachable from the empty registries by handler steps,
passes of the supervisor and changes of iteration order, every entry of the
in-flight registry and every entry of the completed store is stored under the
key equal to its `filename`; no key of the in-flight registry occurs twice, so
this is the entry `lookup` finds under that key. -/
theorem registry_keys_are_filenames (cfg : Config) (s : State) (h : Reachable cfg s) :
    (∀ k t, (k, t) ∈ s.inFlight → t.filename = k) ∧
      (∀ k t, (k, t) ∈ s.store → t.filename = k) ∧
      (∀ k t, lookup s.inFlight k = some t → t.filename = k) ∧
      (∀ k t, lookup s.store k = some t → t.filename = k) := by
  have hk := h.keysOk
  have hst := h.store_named
  refine ⟨fun k t he => hk.1 (k, t) he, fun k t he => hst (k, t) he, ?_, ?_⟩
  · intro k t hl
    exact hk.1 (k, t) ((lookup_eq_some_iff hk.2 k t).1 hl)
  · intro k t hl
    simp only [lookup, Option.map_eq_some'] at hl
    obtain ⟨e, he, rfl⟩ := hl
    have hmem := List.mem_of_find?_eq_some he
    have hkey := List.find?_some he
    rw [beq_iff_eq] at hkey
    rw [← hkey]
    exact hst e hmem

theorem registry_keys_are_filenames_witness :
    Reachable {} twoSessions ∧
      ((∀ k t, (k, t) ∈ twoSessions.inFlight → t.filename = k) ∧
        (∀ k t, (k, t) ∈ twoSessions.store → t.filename = k) ∧
        (∀ k t, lookup twoSessions.inFlight k = some t → t.filename = k) ∧
        (∀ k t, lookup twoSessions.store k = some t → t.filename = k)) :=
  have hr : Reachable {} twoSessions :=
    Reachable.step (Reachable.step Reachable.init (Step.wrq _ 7 wrqF clientA true 0))
      (Step.wrq _ 7 wrqG clientB true (30 * Second))
  ⟨hr, registry_keys_are_filenames {} twoSessions hr⟩
/-! ## The packets of a supervisor pass (C11, C14) -/

/-- Every `WriteTo` of the loop of `flush` is the retransmission of a pending
entry that is not expired, has `retry` set and is due. -/
theorem flushRange_sent (cfg : Config) (env : String → Tick) :
    ∀ (pending : List (String × transfer)) (m : Registry) (out : List WriteTo) (w : WriteTo),
      w ∈ (flushRange cfg env pending m out).2 →
      w ∈ out ∨ ∃ e ∈ pending, w = retransmission e.2 ∧ expired cfg (env e.1) e.2 = false ∧
        e.2.retry = true ∧ due cfg (env e.1) e.2 = true := by
  intro pending
  induction pending with
  | nil => intro m out w hw; exact Or.inl hw
  | cons e pending ih =>
    intro m out w hw
    obtain ⟨k, t⟩ := e
    have lift : ∀ {m' : Registry}, w ∈ (flushRange cfg env pending m' out).2 →
        w ∈ out ∨ ∃ e ∈ (k, t) :: pending, w = retransmission e.2 ∧
          expired cfg (env e.1) e.2 = false ∧ e.2.retry = true ∧ due cfg (env e.1) e.2 = true := by
      intro m' h
      rcases ih m' out w h with h | ⟨e, he, h⟩
      · exact Or.inl h
      · exact Or.inr ⟨e, List.mem_cons_of_mem _ he, h⟩
    rw [flushRange] at hw
    split at hw
    · exact lift hw
    · split at hw
      · exact lift hw
      · rename_i hex
        split at hw
        · rename_i hr
          split at hw
          · rename_i hd
            have hw' : w ∈ (flushRange cfg env pending m
                (out ++ [(transmit t (env k).ok (env k).now3).2])).2 := hw
            rw [transmit_snd] at hw'
            rcases ih m _ w hw' with h | ⟨e, he, h⟩
            · rcases List.mem_append.1 h with h | h
              · exact Or.inl h
              · refine Or.inr ⟨(k, t), List.mem_cons_self _ _, ?_, by simpa using hex, hr, hd⟩
                exact List.mem_singleton.1 h
            · exact Or.inr ⟨e, List.mem_cons_of_mem _ he, h⟩
          · exact lift hw
        · exact lift hw

theorem send_sendData (t : transfer) (r : Packet) (ok : Bool) (now : Time) :
    (send t r ok now).1.sendData = r.Serialize := by
  cases ok <;> rfl

theorem HoldsSerialized_filter (p : String × transfer → Bool) {m : Registry}
    (h : HoldsSerialized m) : HoldsSerialized (m.filter p) :=
  fun e he => h e (List.mem_of_mem_filter he)

theorem HoldsSerialized_assign_send {m : Registry} (h : HoldsSerialized m) (k : String)
    (t : transfer) (r : Packet) (ok : Bool) (now : Time) :
    HoldsSerialized (assign m k (send t r ok now).1) := by
  intro e he
  rcases List.mem_append.1 he with he | he
  · exact h e (List.mem_of_mem_filter he)
  · simp at he; subst he; exact ⟨r, send_sendData _ _ _ _⟩

theorem dataHandler_HoldsSerialized (s : State) (conn : Conn) (pkt : PacketData) (addr : Addr)
    (n : Int) (ok : Bool) (now : Time) (s' : State) (out : List WriteTo)
    (h : HoldsSerialized s.inFlight)
    (hs : dataHandler s conn pkt addr n ok now = .ok (s', out)) :
    HoldsSerialized s'.inFlight := by
  cases hfind : findTransfer s.inFlight pkt.BlockNum addr with
  | none =>
    simp only [dataHandler, hfind] at hs
    cases hs; exact h
  | some t =>
    cases hup : (Trim pkt.Data).upTo n with
    | error f => rw [dataHandler_fault_of_found conn ok now hfind hup] at hs; cases hs
    | ok dn =>
      rw [dataHandler_of_found conn ok now hfind hup] at hs
      by_cases hn : n < (maxDataSize : Int)
      · simp only [hn, if_true] at hs
        cases hs
        exact HoldsSerialized_filter _ h
      · simp only [hn, if_false] at hs
        cases hs
        exact HoldsSerialized_assign_send h _ _ _ _ _

theorem ackHandler_HoldsSerialized (s : State) (conn : Conn) (pkt : PacketAck) (addr : Addr)
    (ok : Bool) (now : Time) (s' : State) (out : List WriteTo)
    (h : HoldsSerialized s.inFlight)
    (hs : ackHandler s conn pkt addr ok now = .ok (s', out)) :
    HoldsSerialized s'.inFlight := by
  unfold ackHandler at hs
  cases hfind : findTransfer s.inFlight pkt.BlockNum addr with
  | none =>
    simp only [hfind] at hs
    cases hs; exact h
  | some t =>
    simp only [hfind] at hs
    split at hs
    · split at hs
      · cases hs
        exact HoldsSerialized_assign_send h _ _ _ _ _
      · cases hs
    · split at hs
      · cases hs
        exact HoldsSerialized_filter _ h
      · cases hs
        exact HoldsSerialized_assign_send h _ _ _ _ _

/-- In every reachable state each in-flight entry holds, as `sendData`, the
serialization of the packet its handler sent last. -/
theorem Reachable.holds_serialized {cfg : Config} {s : State} (h : Reachable cfg s) :
    HoldsSerialized s.inFlight := by
  induction h with
  | init => intro e he; cases he
  | step hreach hstep ih =>
    cases hstep with
    | wrq conn pkt addr ok now =>
      unfold wrqHandler
      split
      · exact ih
      · exact HoldsSerialized_assign_send ih _ _ _ _ _
    | rrq conn pkt addr ok now =>
      unfold rrqHandler
      split
      · exact ih
      · exact HoldsSerialized_assign_send ih _ _ _ _ _
    | data conn pkt addr n ok now _ out hs =>
      exact dataHandler_HoldsSerialized _ conn pkt addr n ok now _ out ih hs
    | ack conn pkt addr ok now _ out hs =>
      exact ackHandler_HoldsSerialized _ conn pkt addr ok now _ out ih hs
    | err => exact ih
    | sweep env =>
      rw [(flush_of_KeysOk cfg _ env hreach.keysOk).1]
      exact HoldsSerialized_filter _ ih
    | order m₁ m₂ h₁ _ => exact fun e he => ih e (h₁.subset he)

/-! ## The last packet sent for a session (C11) -/

theorem lastSent_append_self (log : SendLog) (k : String) (w : WriteTo) :
    lastSent (log ++ [(k, w)]) k = some w := by
  simp [lastSent]

theorem lastSent_append_of_ne (log : SendLog) {k k' : String} (w : WriteTo) (h : k' ≠ k) :
    lastSent (log ++ [(k', w)]) k = lastSent log k := by
  simp [lastSent, List.find?_cons, h]

theorem HoldsLastSent_subset {m m' : Registry} {log : SendLog} (h : HoldsLastSent m log)
    (hs : ∀ e ∈ m', e ∈ m) : HoldsLastSent m' log :=
  fun e he => h e (hs e he)

theorem mem_delete {m : Registry} {k : String} {e : String × transfer} (he : e ∈ delete m k) :
    e ∈ m ∧ e.1 ≠ k := by
  unfold delete at he
  rw [List.mem_filter] at he
  exact ⟨he.1, by simpa using he.2⟩

theorem HoldsLastSent_delete_sent {m : Registry} {log : SendLog} (h : HoldsLastSent m log)
    (k : String) (w : WriteTo) : HoldsLastSent (delete m k) (log ++ [(k, w)]) := by
  intro e he
  obtain ⟨hm, hne⟩ := mem_delete he
  rw [lastSent_append_of_ne log w (Ne.symm hne)]
  exact h e hm

theorem HoldsLastSent_assign_send {m : Registry} {log : SendLog} (h : HoldsLastSent m log)
    (k : String) (t : transfer) (r : Packet) (ok : Bool) (now : Time) :
    HoldsLastSent (assign m k (send t r ok now).1) (log ++ [(k, (send t r ok now).2)]) := by
  intro e he
  rcases List.mem_append.1 he with he | he
  · exact HoldsLastSent_delete_sent h k _ e he
  · rw [List.mem_singleton] at he
    subst he
    rw [lastSent_append_self]
    cases ok <;> rfl

theorem wrqHandler_HoldsLastSent (s : State) (log : SendLog) (conn : Conn)
    (pkt : PacketRequest) (addr : Addr) (ok : Bool) (now : Time)
    (h : HoldsLastSent s.inFlight log) :
    HoldsLastSent (wrqHandler s conn pkt addr ok now).1.inFlight
      (log ++ tagged (wrqSession s pkt) (wrqHandler s conn pkt addr ok now).2) := by
  unfold wrqHandler wrqSession
  split
  · rw [tagged, List.append_nil]; exact h
  · have := HoldsLastSent_assign_send h pkt.Filename
      { blockNum := 1, addr := addr, conn := conn, filename := pkt.Filename } (.ack ⟨0⟩) ok now
    cases ok <;> exact this

theorem rrqHandler_HoldsLastSent (s : State) (log : SendLog) (conn : Conn)
    (pkt : PacketRequest) (addr : Addr) (ok : Bool) (now : Time)
    (h : HoldsLastSent s.inFlight log) :
    HoldsLastSent (rrqHandler s conn pkt addr ok now).1.inFlight
      (log ++ tagged (rrqSession s pkt addr) (rrqHandler s conn pkt addr ok now).2) := by
  unfold rrqHandler rrqSession
  cases hl : lookup s.store pkt.Filename with
  | none => rw [tagged, List.append_nil]; exact h
  | some t =>
    have := HoldsLastSent_assign_send h addr.string
      { t with blockNum := 1, addr := addr, conn := conn, filename := addr.string }
      (.data ⟨1, ⟨if t.data.length ≥ maxDataSize then t.data.take maxDataSize else t.data, []⟩⟩)
      ok now
    cases ok <;> exact this

theorem dataHandler_HoldsLastSent (s : State) (log : SendLog) (conn : Conn) (pkt : PacketData)
    (addr : Addr) (n : Int) (ok : Bool) (now : Time) (s' : State) (out : List WriteTo)
    (h : HoldsLastSent s.inFlight log)
    (hs : dataHandler s conn pkt addr n ok now = .ok (s', out)) :
    HoldsLastSent s'.inFlight (log ++ tagged (dataSession s pkt addr) out) := by
  unfold dataSession
  cases hfind : findTransfer s.inFlight pkt.BlockNum addr with
  | none =>
    simp only [dataHandler, hfind] at hs
    cases hs
    rw [Option.map_none', tagged, List.append_nil]; exact h
  | some t =>
    cases hup : (Trim pkt.Data).upTo n with
    | error f => rw [dataHandler_fault_of_found conn ok now hfind hup] at hs; cases hs
    | ok dn =>
      rw [dataHandler_of_found conn ok now hfind hup] at hs
      by_cases hn : n < (maxDataSize : Int)
      · simp only [hn, if_true] at hs
        cases hs
        exact HoldsLastSent_delete_sent h _ _
      · simp only [hn, if_false] at hs
        cases hs
        have := HoldsLastSent_assign_send h t.filename
          { t with data := t.data ++ dn, blockNum := u16 (t.blockNum + 1) }
          (.ack ⟨pkt.BlockNum⟩) ok now
        cases ok <;> exact this

theorem ackHandler_HoldsLastSent (s : State) (log : SendLog) (conn : Conn) (pkt : PacketAck)
    (addr : Addr) (ok : Bool) (now : Time) (s' : State) (out : List WriteTo)
    (h : HoldsLastSent s.inFlight log)
    (hs : ackHandler s conn pkt addr ok now = .ok (s', out)) :
    HoldsLastSent s'.inFlight (log ++ tagged (ackSession s pkt addr) out) := by
  unfold ackHandler at hs
  unfold ackSession
  cases hfind : findTransfer s.inFlight pkt.BlockNum addr with
  | none =>
    simp only [hfind] at hs
    cases hs
    rw [Option.map_none', tagged, List.append_nil]; exact h
  | some t =>
    simp only [hfind] at hs
    split at hs
    · split at hs
      · cases hs
        have := HoldsLastSent_assign_send h t.filename
          { t with blockNum := u16 (t.blockNum + 1) }
          (.data ⟨u16 (t.blockNum + 1),
            ⟨(t.data.take (u16 (u16 (t.blockNum + 1) * maxDataSize))).drop
              (u16 (pkt.BlockNum * maxDataSize)), []⟩⟩) ok now
        cases ok <;> exact this
      · cases hs
    · split at hs
      · cases hs
        rw [Option.map_some', tagged, List.map_nil, List.append_nil]
        exact HoldsLastSent_subset h (fun e he => (mem_delete he).1)
      · cases hs
        have := HoldsLastSent_assign_send h t.filename
          { t with blockNum := u16 (t.blockNum + 1) }
          (.data ⟨u16 (t.blockNum + 1), ⟨t.data.drop (u16 (pkt.BlockNum * maxDataSize)), []⟩⟩)
          ok now
        cases ok <;> exact this

/-- A logged run is a run: its state is reachable. -/
theorem Logged.reachable {cfg : Config} {s : State} {log : SendLog} (h : Logged cfg s log) :
    Reachable cfg s := by
  induction h with
  | init => exact Reachable.init
  | wrq conn pkt addr ok now _ ih => exact Reachable.step ih (Step.wrq _ conn pkt addr ok now)
  | rrq conn pkt addr ok now _ ih => exact Reachable.step ih (Step.rrq _ conn pkt addr ok now)
  | data conn pkt addr n ok now s' out _ hs ih =>
    exact Reachable.step ih (Step.data _ conn pkt addr n ok now s' out hs)
  | ack conn pkt addr ok now s' out _ hs ih =>
    exact Reachable.step ih (Step.ack _ conn pkt addr ok now s' out hs)
  | err pkt addr _ ih => exact Reachable.step ih (Step.err _ pkt addr)
  | sweep env _ ih => exact Reachable.step ih (Step.sweep _ env)
  | order m₁ m₂ _ h₁ h₂ ih => exact Reachable.step ih (Step.order _ m₁ m₂ h₁ h₂)

/-- Every run has a log: each reachable state is the state of a logged run. -/
theorem Reachable.logged {cfg : Config} {s : State} (h : Reachable cfg s) :
    ∃ log, Logged cfg s log := by
  induction h with
  | init => exact ⟨[], Logged.init⟩
  | step _ hstep ih =>
    obtain ⟨log, hl⟩ := ih
    cases hstep with
    | wrq conn pkt addr ok now => exact ⟨_, Logged.wrq conn pkt addr ok now hl⟩
    | rrq conn pkt addr ok now => exact ⟨_, Logged.rrq conn pkt addr ok now hl⟩
    | data conn pkt addr n ok now _ out hs =>
      exact ⟨_, Logged.data conn pkt addr n ok now _ out hl hs⟩
    | ack conn pkt addr ok now _ out hs => exact ⟨_, Logged.ack conn pkt addr ok now _ out hl hs⟩
    | err pkt addr => exact ⟨_, Logged.err pkt addr hl⟩
    | sweep env => exact ⟨_, Logged.sweep env hl⟩
    | order m₁ m₂ h₁ h₂ => exact ⟨_, Logged.order m₁ m₂ hl h₁ h₂⟩

/-- In every logged run each in-flight entry holds the last packet that a
handler sent under its key. -/
theorem Logged.holds_last_sent {cfg : Config} {s : State} {log : SendLog}
    (h : Logged cfg s log) : HoldsLastSent s.inFlight log := by
  induction h with
  | init => intro e he; cases he
  | wrq conn pkt addr ok now _ ih => exact wrqHandler_HoldsLastSent _ _ conn pkt addr ok now ih
  | rrq conn pkt addr ok now _ ih => exact rrqHandler_HoldsLastSent _ _ conn pkt addr ok now ih
  | data conn pkt addr n ok now s' out _ hs ih =>
    exact dataHandler_HoldsLastSent _ _ conn pkt addr n ok now s' out ih hs
  | ack conn pkt addr ok now s' out _ hs ih =>
    exact ackHandler_HoldsLastSent _ _ conn pkt addr ok now s' out ih hs
  | err pkt addr _ ih => exact ih
  | sweep env hl ih =>
    rw [(flush_of_KeysOk cfg _ env hl.reachable.keysOk).1]
    exact HoldsLastSent_subset ih (fun e he => List.mem_of_mem_filter he)
  | order m₁ m₂ _ h₁ _ ih => exact HoldsLastSent_subset ih (fun e he => h₁.subset he)

/-- The state `retryState` with the log `retryLog` is a logged run: a write
request for "f" at second 1000 and a first full block whose acknowledgment
fails to send. -/
theorem retryState_logged (cfg : Config) : Logged cfg retryState retryLog :=
  Logged.data 7 ⟨1, ⟨List.replicate 512 1, []⟩⟩ clientA 512 false (1001 * Second) retryState
    [⟨7, [0, 4, 0, 1], clientA⟩] (Logged.wrq 7 wrqF clientA true (1000 * Second) Logged.init) rfl

/-- C11, the counterexample: with Rexmt-interval 18446744074 the product
`time.Second * 18446744074` overflows `int64` to 290448384 ns. The pass at
second 1001 over `retryState` (last activity at second 1000, `retry` set)
retransmits Ack(1), although the elapsed time of one second is not greater
than the configured retransmit interval. -/
theorem flush_retransmits_before_interval :
    Reachable wrappedInterval retryState ∧
      (flush wrappedInterval retryState (steadyClock (1001 * Second))).2 =
        [⟨7, [0, 4, 0, 1], clientA⟩] ∧
      ∃ t, lookup retryState.inFlight "f" = some t ∧
        ¬ Second * wrappedInterval.rexmtInterval <
          (steadyClock (1001 * Second) "f").now2 - t.lastOp :=
  ⟨(retryState_logged wrappedInterval).reachable, by decide, _, rfl, by decide⟩

/-- C11, amended: let the flag Rexmt-interval lie within ±9223372036 seconds,
so that `time.Second * Rexmt-interval` does not overflow `int64`. Then in
every run of the server, every packet that a pass of the supervisor sends
belongs to an in-flight transfer `t` under a key `k`: its bytes are
`t.sendData`, it goes to `t.addr` through `t.conn`, `t.retry` is set, and the
elapsed time since `t.lastOp`, read at the retransmit test, is strictly
greater than Rexmt-interval seconds. The packet is the serialization of a
packet, and it is the last one that a handler sent for the session `k`,
meaning the last call of `t.send` under that key, whether or not its write
succeeded. -/
theorem flush_retransmits_verbatim (cfg : Config) (s : State) (log : SendLog)
    (env : String → Tick) (w : WriteTo) (hlog : Logged cfg s log)
    (hlo : -9223372036 ≤ cfg.rexmtInterval) (hhi : cfg.rexmtInterval ≤ 9223372036)
    (hw : w ∈ (flush cfg s env).2) :
    ∃ k t, lookup s.inFlight k = some t ∧
      w.bytes = t.sendData ∧ w.addr = t.addr ∧ w.conn = t.conn ∧ t.retry = true ∧
      Second * cfg.rexmtInterval < (env k).now2 - t.lastOp ∧
      (∃ p : Packet, w.bytes = p.Serialize) ∧
      lastSent log k = some w := by
  rcases flushRange_sent cfg env s.inFlight s.inFlight [] w hw with h | ⟨e, he, hwe, _, hr, hd⟩
  · cases h
  · have hd' : wrap64 (Second * cfg.rexmtInterval) < Time.Sub (env e.1).now2 e.2.lastOp := by
      simpa [due] using hd
    rw [wrap64_of_range (by unfold Second; omega) (by unfold Second; omega),
      lt_Sub_iff _ _ (by unfold Second; omega) (by unfold Second; omega)] at hd'
    have hreach := hlog.reachable
    obtain ⟨p, hp⟩ := hreach.holds_serialized e he
    refine ⟨e.1, e.2, (lookup_eq_some_iff hreach.keysOk.2 e.1 e.2).2 he, ?_, ?_, ?_, hr, hd',
      ⟨p, ?_⟩, ?_⟩
    · rw [hwe]; rfl
    · rw [hwe]; rfl
    · rw [hwe]; rfl
    · rw [hwe]; exact hp
    · rw [hwe]; exact hlog.holds_last_sent e he

theorem flush_retransmits_verbatim_witness :
    Logged {} retryState retryLog ∧ -9223372036 ≤ ({} : Config).rexmtInterval ∧
      ({} : Config).rexmtInterval ≤ 9223372036 ∧
      (⟨7, [0, 4, 0, 1], clientA⟩ : WriteTo) ∈
        (flush {} retryState (steadyClock (1010 * Second))).2 ∧
      ∃ k t, lookup retryState.inFlight k = some t ∧
        (⟨7, [0, 4, 0, 1], clientA⟩ : WriteTo).bytes = t.sendData ∧
        (⟨7, [0, 4, 0, 1], clientA⟩ : WriteTo).addr = t.addr ∧
        (⟨7, [0, 4, 0, 1], clientA⟩ : WriteTo).conn = t.conn ∧ t.retry = true ∧
        Second * ({} : Config).rexmtInterval <
          (steadyClock (1010 * Second) k).now2 - t.lastOp ∧
        (∃ p : Packet, (⟨7, [0, 4, 0, 1], clientA⟩ : WriteTo).bytes = p.Serialize) ∧
        lastSent retryLog k = some ⟨7, [0, 4, 0, 1], clientA⟩ :=
  ⟨retryState_logged {}, by decide, by decide, by decide,
    flush_retransmits_verbatim {} retryState retryLog (steadyClock (1010 * Second))
      ⟨7, [0, 4, 0, 1], clientA⟩ (retryState_logged {}) (by decide) (by decide) (by decide)⟩

/-! ## The interval and the timeout (C14) -/

/-- The state `retryState` is reached by a write request for "f" at second 1000
and a first full block whose acknowledgment fails to send. -/
theorem retryState_reachable (cfg : Config) : Reachable cfg retryState :=
  Reachable.step (Reachable.step Reachable.init (Step.wrq _ 7 wrqF clientA true (1000 * Second)))
    (Step.data _ 7 ⟨1, ⟨List.replicate 512 1, []⟩⟩ clientA 512 false (1001 * Second) retryState
      [⟨7, [0, 4, 0, 1], clientA⟩] rfl)

theorem Time.Sub_mono {a b : Int} (u : Int) (h : a ≤ b) : Time.Sub a u ≤ Time.Sub b u := by
  have h1 : maxDuration = (9223372036854775807 : Int) := by unfold maxDuration; norm_num
  have h2 : minDuration = (-9223372036854775808 : Int) := by unfold minDuration; norm_num
  unfold Time.Sub
  rw [h1, h2]
  by_cases a1 : (a - u : Int) > 9223372036854775807 <;>
    by_cases a2 : (a - u : Int) < -9223372036854775808 <;>
    by_cases b1 : (b - u : Int) > 9223372036854775807 <;>
    by_cases b2 : (b - u : Int) < -9223372036854775808 <;>
    simp only [a1, a2, b1, b2, if_true, if_false] <;>
    show (_ : Int) ≤ _ <;> omega

/-- C14, the counterexample: with Rexmt-interval 9223372037 and Max-timeout 25
the interval is not below the timeout, yet the pass at second 1010 over
`retryState` (last activity at second 1000, `retry` set) retransmits Ack(1):
`time.Second * 9223372037` overflows `int64` to a negative duration. -/
theorem flush_sends_when_interval_overflows :
    longInterval.maxTimeout ≤ longInterval.rexmtInterval ∧
      (flush longInterval retryState (steadyClock (1010 * Second))).2 =
        [⟨7, [0, 4, 0, 1], clientA⟩] := by
  decide

/-- C14, amended: if the retransmit interval is not below the maximum timeout,
both lie within ±9223372036 seconds (so neither duration overflows `int64`)
and, for every entry, the retransmit test does not read a later clock than the
expiry test, then for every registry state a pass of the supervisor sends no
packet: every entry that is due is expired, and in a reachable state it is
gone from the in-flight registry after the pass. -/
theorem flush_silent_when_interval_ge_timeout (cfg : Config) (s : State) (env : String → Tick)
    (hcfg : cfg.maxTimeout ≤ cfg.rexmtInterval)
    (hlo : -9223372036 ≤ cfg.maxTimeout) (hhi : cfg.rexmtInterval ≤ 9223372036)
    (hclock : ∀ k, (env k).now2 ≤ (env k).now1) :
    (flush cfg s env).2 = [] ∧
      (∀ k t, due cfg (env k) t = true → expired cfg (env k) t = true) ∧
      (Reachable cfg s → ∀ k t, lookup s.inFlight k = some t → due cfg (env k) t = true →
        lookup (flush cfg s env).1.inFlight k = none) := by
  have hd : wrap64 (Second * cfg.maxTimeout) = Second * cfg.maxTimeout := by
    apply wrap64_of_range <;> (unfold Second; omega)
  have htd : wrap64 (Second * cfg.rexmtInterval) = Second * cfg.rexmtInterval := by
    apply wrap64_of_range <;> (unfold Second; omega)
  have himp : ∀ k t, due cfg (env k) t = true → expired cfg (env k) t = true := by
    intro k t h
    simp only [due, expired, decide_eq_true_eq, hd, htd] at h ⊢
    have hm : @LE.le Int _ (Time.Sub (env k).now2 t.lastOp) (Time.Sub (env k).now1 t.lastOp) :=
      Time.Sub_mono t.lastOp (hclock k)
    unfold Second at h ⊢
    omega
  refine ⟨?_, himp, ?_⟩
  · rw [List.eq_nil_iff_forall_not_mem]
    intro w hw
    rcases flushRange_sent cfg env s.inFlight s.inFlight [] w hw with h | ⟨e, _, _, hex, _, hdue⟩
    · cases h
    · rw [himp e.1 e.2 hdue] at hex
      cases hex
  · intro hreach k t hl hdue
    have hk := hreach.keysOk
    rw [(flush_of_KeysOk cfg s env hk).1]
    cases hf : lookup (s.inFlight.filter (fun e => !expired cfg (env e.1) e.2)) k with
    | none => rfl
    | some t' =>
      have := (lookup_filter hk.2 _ k t').1 hf
      rw [hl] at this
      obtain ⟨ht, hp⟩ := this
      cases ht
      simp [himp k t hdue] at hp

theorem flush_silent_when_interval_ge_timeout_witness :
    (flush ⟨25, 25⟩ retryState (steadyClock (1030 * Second))).2 = [] ∧
      (∀ k t, due ⟨25, 25⟩ (steadyClock (1030 * Second) k) t = true →
        expired ⟨25, 25⟩ (steadyClock (1030 * Second) k) t = true) ∧
      (Reachable ⟨25, 25⟩ retryState → ∀ k t, lookup retryState.inFlight k = some t →
        due ⟨25, 25⟩ (steadyClock (1030 * Second) k) t = true →
        lookup (flush ⟨25, 25⟩ retryState (steadyClock (1030 * Second))).1.inFlight k = none) :=
  flush_silent_when_interval_ge_timeout ⟨25, 25⟩ retryState (steadyClock (1030 * Second))
    (by decide) (by decide) (by decide) (fun _ => le_refl _)
/-- With equal interval and timeout of 25 s, a clock that advances by one
nanosecond between the expiry test and the retransmit test lets the pass
retransmit for a session whose last activity is exactly 25 s old. -/
theorem flush_sends_when_clock_advances :
    (flush ⟨25, 25⟩ retryState
      (fun _ => ⟨1025 * Second, 1025 * Second + 1, true, 1025 * Second + 1⟩)).2 =
        [⟨7, [0, 4, 0, 1], clientA⟩] := by
  decide

/-! ## Block numbers (C13) -/

theorem findTransfer_some {m : Registry} {block : Nat} {addr : Addr} {t : transfer}
    (h : findTransfer m block addr = some t) :
    t.blockNum = block ∧ addr.string = t.addr.string ∧ ∃ k, (k, t) ∈ m := by
  simp only [findTransfer, Option.map_eq_some'] at h
  obtain ⟨e, he, rfl⟩ := h
  have hp := List.find?_some he
  have hm := List.mem_of_find?_eq_some he
  simp only [Bool.and_eq_true, beq_iff_eq] at hp
  exact ⟨hp.1, hp.2, e.1, hm⟩

/-- C13, the counterexample: a write session waiting for block 65535 receives
that block with 512 bytes and is written back to the in-flight registry; the
block number stored afterwards is not greater than 65535. -/
theorem dataHandler_blockNum_not_increasing :
    ∃ s' out t',
      dataHandler ⟨[("g", lastBlockG)], []⟩ 7 ⟨65535, ⟨List.replicate 512 2, []⟩⟩ clientA 512
        false 300 = .ok (s', out) ∧
      lookup s'.inFlight "g" = some t' ∧ ¬ (lastBlockG.blockNum < t'.blockNum) := by
  refine ⟨_, _, _, rfl, rfl, ?_⟩
  decide

/-- C13, amended: let a DATA or ACK packet match the in-flight transfer `t`,
whose block number is a 16-bit value. If `dataHandler` writes the transfer
back under `t.filename`, the stored block number is strictly greater than
before when `t.blockNum < 65535`, and is 0 when `t.blockNum = 65535`. If
`ackHandler` writes the transfer back, then `t.blockNum < 65535` and the stored
block number is strictly greater than before: at 65535 `ackHandler` panics on
the slice and writes nothing. -/
theorem blockNum_after_step (s : State) (conn : Conn) (b : Nat) (data : Slice) (addr : Addr)
    (n : Int) (ok : Bool) (now : Time) (t : transfer)
    (hfind : findTransfer s.inFlight b addr = some t) (hu : t.blockNum ≤ 65535) :
    (∀ s' out t', dataHandler s conn ⟨b, data⟩ addr n ok now = .ok (s', out) →
        lookup s'.inFlight t.filename = some t' →
        (t.blockNum < 65535 → t.blockNum < t'.blockNum) ∧
          (t.blockNum = 65535 → t'.blockNum = 0)) ∧
      (∀ s' out t', ackHandler s conn ⟨b⟩ addr ok now = .ok (s', out) →
        lookup s'.inFlight t.filename = some t' →
        t.blockNum < 65535 ∧ t.blockNum < t'.blockNum) := by
  have hb : t.blockNum = b := (findTransfer_some hfind).1
  constructor
  · intro s' out t' hs hl
    cases hup : (Trim data).upTo n with
    | error f =>
      rw [@dataHandler_fault_of_found s conn ⟨b, data⟩ addr n ok now t f hfind hup] at hs
      cases hs
    | ok dn =>
      rw [@dataHandler_of_found s conn ⟨b, data⟩ addr n ok now t dn hfind hup] at hs
      by_cases hn : n < (maxDataSize : Int)
      · simp only [hn, if_true] at hs
        cases hs
        have := (lookup_eq_none_iff _ _).2 (not_mem_keys_delete s.inFlight t.filename)
        rw [this] at hl
        cases hl
      · simp only [hn, if_false] at hs
        cases hs
        rw [lookup_assign_self] at hl
        cases hl
        rw [send_fst]
        simp only [u16]
        constructor <;> intro h <;> omega
  · intro s' out t' hs hl
    unfold ackHandler at hs
    simp only [hfind] at hs
    split at hs
    · split at hs
      · rename_i h1 h2
        cases hs
        simp only [send_filename] at hl
        rw [lookup_assign_self] at hl
        cases hl
        rw [send_fst]
        simp only [u16, maxDataSize] at h2 ⊢
        omega
      · cases hs
    · split at hs
      · cases hs
        simp only [send_filename] at hl
        have := (lookup_eq_none_iff _ _).2 (not_mem_keys_delete s.inFlight t.filename)
        rw [this] at hl
        cases hl
      · rename_i h1 h2
        cases hs
        simp only [send_filename] at hl
        rw [lookup_assign_self] at hl
        cases hl
        rw [send_fst]
        simp only [u16, maxDataSize] at h1 ⊢
        omega

theorem blockNum_after_step_witness :
    (∀ s' out t', dataHandler ⟨[("g", sessionG)], []⟩ 7 ⟨1, ⟨List.replicate 512 1, []⟩⟩ clientA 512
          true 200 = .ok (s', out) →
        lookup s'.inFlight sessionG.filename = some t' →
        (sessionG.blockNum < 65535 → sessionG.blockNum < t'.blockNum) ∧
          (sessionG.blockNum = 65535 → t'.blockNum = 0)) ∧
      (∀ s' out t', ackHandler ⟨[("g", sessionG)], []⟩ 7 ⟨1⟩ clientA true 200 = .ok (s', out) →
        lookup s'.inFlight sessionG.filename = some t' →
        sessionG.blockNum < 65535 ∧ sessionG.blockNum < t'.blockNum) :=
  blockNum_after_step ⟨[("g", sessionG)], []⟩ 7 1 ⟨List.replicate 512 1, []⟩ clientA 512 true 200
    sessionG (by decide) (by decide)
/-! ## ACKs and write sessions (C18) -/

/-- C18, the counterexample: `clientA` opens a write of "g" and then sends
Ack(1). The ACK matches the fresh write session (block number 1, same
endpoint); its empty buffer is shorter than 512 bytes, so `ackHandler` takes
the transfer for a finished read and deletes it from the in-flight registry. -/
theorem ackHandler_removes_write_session :
    lookup (wrqHandler {} 7 wrqG clientA true 100).1.inFlight "g" = some sessionG ∧
      ackHandler (wrqHandler {} 7 wrqG clientA true 100).1 7 ⟨1⟩ clientA true 200 =
        .ok (⟨[], []⟩, []) := by
  constructor
  · decide
  · rfl

theorem send_snd (t : transfer) (r : Packet) (ok : Bool) (now : Time) :
    (send t r ok now).2 = ⟨t.conn, r.Serialize, t.addr⟩ := by
  cases ok <;> rfl

/-- C18, amended: in a reachable state, an ACK whose block number and endpoint
string do not both match an in-flight transfer `t` leaves the entry of `t` as
it was, whenever `ackHandler` returns; every packet it sends goes to an
endpoint with the string of the ACK's sender, so none goes to the endpoint of
`t` when the ACK comes from another endpoint. -/
theorem ackHandler_keeps_unmatched (cfg : Config) (s : State) (conn : Conn) (b : Nat)
    (addr : Addr) (ok : Bool) (now : Time) (k : String) (t : transfer) (s' : State)
    (out : List WriteTo) (hreach : Reachable cfg s)
    (hl : lookup s.inFlight k = some t)
    (hno : ¬ (t.blockNum = b ∧ addr.string = t.addr.string))
    (hs : ackHandler s conn ⟨b⟩ addr ok now = .ok (s', out)) :
    lookup s'.inFlight k = some t ∧ (∀ w ∈ out, w.addr.string = addr.string) ∧
      (addr.string ≠ t.addr.string → ∀ w ∈ out, w.addr ≠ t.addr) := by
  have hk := hreach.keysOk
  have key : lookup s'.inFlight k = some t ∧ (∀ w ∈ out, w.addr.string = addr.string) := by
    unfold ackHandler at hs
    cases hfind : findTransfer s.inFlight b addr with
    | none =>
      simp only [hfind] at hs
      cases hs
      exact ⟨hl, fun w hw => by cases hw⟩
    | some t₂ =>
      obtain ⟨hb₂, ha₂, k₂, hmem₂⟩ := findTransfer_some hfind
      have hf₂ : t₂.filename = k₂ := hk.1 (k₂, t₂) hmem₂
      have hne : k ≠ t₂.filename := by
        intro h
        have h₂ : lookup s.inFlight k = some t₂ :=
          (lookup_eq_some_iff hk.2 k t₂).2 (by rw [h, hf₂]; exact hmem₂)
        rw [hl] at h₂
        cases h₂
        exact hno ⟨hb₂, ha₂⟩
      simp only [hfind] at hs
      split at hs
      · split at hs
        · cases hs
          refine ⟨?_, ?_⟩
          · simp only [send_filename]
            rw [lookup_assign_of_ne _ _ hne]
            exact hl
          · intro w hw
            rw [List.mem_singleton] at hw
            rw [hw, send_snd]
            exact ha₂.symm
        · cases hs
      · split at hs
        · cases hs
          refine ⟨?_, fun w hw => by cases hw⟩
          show lookup (delete s.inFlight t₂.filename) k = some t
          rw [lookup_delete_of_ne _ hne]
          exact hl
        · cases hs
          refine ⟨?_, ?_⟩
          · simp only [send_filename]
            rw [lookup_assign_of_ne _ _ hne]
            exact hl
          · intro w hw
            rw [List.mem_singleton] at hw
            rw [hw, send_snd]
            exact ha₂.symm
  refine ⟨key.1, key.2, ?_⟩
  intro hne w hw heq
  exact hne ((key.2 w hw).symm.trans (by rw [heq]))

theorem ackHandler_keeps_unmatched_witness :
    lookup retryState.inFlight "f" = some retrySession ∧
      (lookup retryState.inFlight "f" = some retrySession ∧
        (∀ w ∈ ([] : List WriteTo), w.addr.string = clientA.string) ∧
        (clientA.string ≠ retrySession.addr.string →
          ∀ w ∈ ([] : List WriteTo), w.addr ≠ retrySession.addr)) :=
  ⟨by decide,
    ackHandler_keeps_unmatched {} retryState 7 1 clientA true 2000 "f" retrySession retryState []
      (retryState_reachable {}) (by decide) (by decide) rfl⟩
/-! ## The slice bounds of the ACK handler (C15) -/

/-- From a read session over at least 64512 bytes that waits for the ACK of
block `k`, `j` ACKs in sequence are all answered, as long as `k + j ≤ 127`. -/
theorem readAcks_ReadingAt_ok (conn : Conn) (addr : Addr) (env : Nat → Bool × Time) :
    ∀ (j k : Nat) (s : State) (out : List WriteTo), k + j ≤ 127 → ReadingAt s addr k →
      ∃ out' s', readAcks conn addr env j k s out = (out', .ok s') ∧
        ReadingAt s' addr (k + j) ∧ out'.length = out.length + j := by
  intro j
  induction j with
  | zero =>
    intro k s out _ h
    exact ⟨out, s, rfl, h, rfl⟩
  | succ j ih =>
    intro k s out hk h
    have hin : (lookup s.inFlight addr.string).isNone = false := by
      obtain ⟨t, hs, _⟩ := h
      simp [hs, lookup]
    obtain ⟨s₁, w, hack, h₁⟩ := ackHandler_ReadingAt conn (env k).1 (env k).2 h (by omega)
    obtain ⟨out', s', hrun, h', hlen⟩ := ih (k + 1) s₁ (out ++ [w]) (by omega) h₁
    refine ⟨out', s', ?_, ?_, ?_⟩
    · rw [readAcks]
      simp only [hin, hack]
      exact hrun
    · have : k + (j + 1) = k + 1 + j := by omega
      rw [this]; exact h'
    · rw [hlen, List.length_append]; simp; omega

/-- C15: for a stored file of 64512 bytes or more and no other session in
flight, the read request and the ACKs of blocks 1 to 126 are all answered and
leave a session that the ACK of block 127 matches. For that ACK the bounds are
`tsize = 0` and `rsize = 65024` in `uint16`; since `len(data) >= tsize` the
handler takes `data[rsize:tsize]` with `rsize > tsize` and panics on the slice
bound. -/
theorem ackHandler_slice_out_of_range (store : Registry) (conn : Conn) (pkt : PacketRequest)
    (addr : Addr) (env : Nat → Bool × Time) (file : transfer)
    (hfile : lookup store pkt.Filename = some file) (hsize : 64512 ≤ file.data.length) :
    ∃ out s t, readExchange ⟨[], store⟩ conn pkt addr env 126 = (out, .ok s) ∧
      out.length = 127 ∧
      findTransfer s.inFlight 127 addr = some t ∧
      u16 (u16 (t.blockNum + 1) * maxDataSize) = 0 ∧ u16 (127 * maxDataSize) = 65024 ∧
      u16 (u16 (t.blockNum + 1) * maxDataSize) ≤ t.data.length ∧
      ∀ ok now, ackHandler s conn ⟨127⟩ addr ok now = .error .sliceBounds := by
  unfold readExchange
  have hr : ∃ s₁ w, rrqHandler ⟨[], store⟩ conn pkt addr (env 0).1 (env 0).2 = (s₁, [w]) ∧
      ReadingAt s₁ addr 1 := by
    unfold rrqHandler
    simp only [hfile]
    refine ⟨_, _, rfl, ?_⟩
    exact ReadingAt_assign_nil _ _ (by rw [send_filename]) (by rw [send_fst])
      (by rw [send_fst]) (by rw [send_fst]; exact hsize)
  obtain ⟨s₁, w, hrrq, h₁⟩ := hr
  obtain ⟨out, s, hrun, h, hlen⟩ := readAcks_ReadingAt_ok conn addr env 126 1 s₁ [w] (by omega) h₁
  have h127 : ReadingAt s addr 127 := h
  obtain ⟨t, hs, hb, ha, _, _⟩ := h127
  refine ⟨out, s, t, by rw [hrrq]; exact hrun, by rw [hlen]; rfl, ?_, ?_, by decide, ?_, ?_⟩
  · rw [hs]; exact findTransfer_single hb ha
  · rw [hb]; decide
  · rw [hb]
    have : u16 (u16 (127 + 1) * maxDataSize) = 0 := by decide
    rw [this]; exact Nat.zero_le _
  · intro ok now
    exact ackHandler_ReadingAt_127 conn ok now h

theorem ackHandler_slice_out_of_range_witness :
    ∃ out s t, readExchange ⟨[], [("f", bigFileF)]⟩ 7 ⟨OpRRQ, "f", "octet"⟩ clientB
        (fun _ => (true, 200)) 126 = (out, .ok s) ∧
      out.length = 127 ∧
      findTransfer s.inFlight 127 clientB = some t ∧
      u16 (u16 (t.blockNum + 1) * maxDataSize) = 0 ∧ u16 (127 * maxDataSize) = 65024 ∧
      u16 (u16 (t.blockNum + 1) * maxDataSize) ≤ t.data.length ∧
      ∀ ok now, ackHandler s 7 ⟨127⟩ clientB ok now = .error .sliceBounds :=
  ackHandler_slice_out_of_range [("f", bigFileF)] 7 ⟨OpRRQ, "f", "octet"⟩ clientB
    (fun _ => (true, 200)) bigFileF rfl
    (show 64512 ≤ (List.replicate 65536 1).length by rw [List.length_replicate]; decide)
/-! ## Read reassembly (C16) -/

theorem block_length_of_lt (data : List Byte) (i : Nat) (h : i < data.length / 512) :
    (block data i).length = 512 := by
  simp only [block, maxDataSize, List.length_take, List.length_drop]
  omega

theorem block_length_last (data : List Byte) :
    (block data (data.length / 512)).length = data.length % 512 := by
  simp only [block, maxDataSize, List.length_take, List.length_drop]
  omega

theorem flatten_blocks (data : List Byte) (n : Nat) :
    ((List.range n).map (block data)).flatten = data.take (n * 512) := by
  induction n with
  | zero => simp
  | succ n ih =>
    rw [List.range_succ, List.map_append, List.flatten_append, ih]
    have : (n + 1) * 512 = n * 512 + 512 := by omega
    rw [this, List.take_add]
    simp [block, maxDataSize]

theorem delete_of_forall_ne {rest : Registry} {a : String} (h : ∀ e ∈ rest, e.1 ≠ a) :
    delete rest a = rest := by
  rw [delete, List.filter_eq_self]
  intro e he
  rw [bne, Bool.not_eq_true', beq_eq_false_iff_ne]
  exact h e he

theorem delete_append_single {rest : Registry} {a : String} (t : transfer)
    (h : ∀ e ∈ rest, e.1 ≠ a) : delete (rest ++ [(a, t)]) a = rest := by
  have h1 : delete [(a, t)] a = [] := by simp [delete]
  rw [delete, List.filter_append]
  change delete rest a ++ delete [(a, t)] a = rest
  rw [delete_of_forall_ne h, h1, List.append_nil]

theorem assign_append_single {rest : Registry} {a : String} (t t' : transfer)
    (h : ∀ e ∈ rest, e.1 ≠ a) : assign (rest ++ [(a, t)]) a t' = rest ++ [(a, t')] := by
  rw [assign, delete_append_single t h]

theorem lookup_append_single {rest : Registry} {a : String} (t : transfer)
    (h : ∀ e ∈ rest, e.1 ≠ a) : lookup (rest ++ [(a, t)]) a = some t := by
  have := lookup_assign_self rest a t
  rw [assign, delete_of_forall_ne h] at this
  exact this

theorem findTransfer_append_single {rest : Registry} {a : String} {t : transfer} {k : Nat}
    {addr : Addr} (h : ∀ e ∈ rest, e.2.addr.string ≠ addr.string)
    (hb : t.blockNum = k) (ha : t.addr.string = addr.string) :
    findTransfer (rest ++ [(a, t)]) k addr = some t := by
  have hnone : rest.find? (fun e => e.2.blockNum == k && addr.string == e.2.addr.string) = none := by
    rw [List.find?_eq_none]
    intro e he hp
    rw [Bool.and_eq_true, beq_iff_eq, beq_iff_eq] at hp
    exact h e he hp.2.symm
  simp [findTransfer, List.find?_append, hnone, hb, ha]

theorem ReadSession_assign {s : State} {rest : Registry} {conn : Conn} {addr : Addr}
    {t t' : transfer} (st : Registry) (k : Nat) (data : List Byte)
    (hs : s.inFlight = rest ++ [(addr.string, t)])
    (hrest : ∀ e ∈ rest, e.1 ≠ addr.string ∧ e.2.addr.string ≠ addr.string)
    (hf : t'.filename = addr.string) (hb : t'.blockNum = k) (ha : t'.addr = addr)
    (hc : t'.conn = conn) (hd : t'.data = data) :
    ReadSession ⟨assign s.inFlight t'.filename t', st⟩ rest conn addr k data :=
  ⟨t', by simp only [hs, hf, assign_append_single t t' (fun e he => (hrest e he).1)], hrest,
    hb, ha, hc, hf, hd⟩

/-- A matching ACK of block `k` whose window starts inside the buffer of a
file shorter than 64512 bytes is answered by the DATA packet of block `k`. -/
theorem ackHandler_ReadSession {s : State} {rest : Registry} {conn : Conn} {addr : Addr}
    {k : Nat} {data : List Byte} (conn' : Conn) (ok : Bool) (now : Time)
    (h : ReadSession s rest conn addr k data) (hlen : data.length < 64512)
    (hk : k * 512 ≤ data.length) :
    ∃ s', ackHandler s conn' ⟨k⟩ addr ok now = .ok (s', [dataBlock conn addr data k]) ∧
      ReadSession s' rest conn addr (k + 1) data ∧ s'.store = s.store := by
  obtain ⟨t, hs, hrest, hb, ha, hc, hf, hd⟩ := h
  have hfind : findTransfer s.inFlight k addr = some t := by
    rw [hs]; exact findTransfer_append_single (fun e he => (hrest e he).2) hb (by rw [ha])
  have h1 : u16 (t.blockNum + 1) = k + 1 := by rw [hb, u16]; omega
  have h2 : u16 ((k + 1) * maxDataSize) = (k + 1) * 512 := by rw [u16, maxDataSize]; omega
  have h3 : u16 (k * maxDataSize) = k * 512 := by rw [u16, maxDataSize]; omega
  unfold ackHandler
  simp only [hfind, h1, h2, h3]
  by_cases hc' : t.data.length ≥ (k + 1) * 512
  · have hle : k * 512 ≤ (k + 1) * 512 := by omega
    have hblk : List.drop (k * 512) (List.take ((k + 1) * 512) t.data) = block data k := by
      rw [List.drop_take, hd, block, maxDataSize]
      congr 1
      omega
    simp only [hc', hle, if_true, hblk]
    rw [send_snd]
    simp only [ha, hc]
    refine ⟨_, rfl, ?_, rfl⟩
    exact ReadSession_assign _ _ _ hs hrest (by rw [send_filename]; exact hf) (by rw [send_fst])
      (by rw [send_fst]) (by rw [send_fst]) (by rw [send_fst]; exact hd)
  · have hlt : ¬ t.data.length < k * 512 := by rw [hd]; omega
    have hblk : List.drop (k * 512) t.data = block data k := by
      rw [hd, block, maxDataSize, List.take_of_length_le]
      rw [List.length_drop]
      rw [hd] at hc'
      omega
    simp only [hc', hlt, if_false, hblk]
    rw [send_snd]
    simp only [ha, hc]
    refine ⟨_, rfl, ?_, rfl⟩
    exact ReadSession_assign _ _ _ hs hrest (by rw [send_filename]; exact hf) (by rw [send_fst])
      (by rw [send_fst]) (by rw [send_fst]) (by rw [send_fst]; exact hd)

/-- A matching ACK of block `k` whose window starts beyond the buffer ends the
session: nothing is sent and only the other entries stay in the registry. -/
theorem ackHandler_ReadSession_done {s : State} {rest : Registry} {conn : Conn} {addr : Addr}
    {k : Nat} {data : List Byte} (conn' : Conn) (ok : Bool) (now : Time)
    (h : ReadSession s rest conn addr k data) (hk₁ : k ≤ 126) (hk : data.length < k * 512) :
    ackHandler s conn' ⟨k⟩ addr ok now = .ok (⟨rest, s.store⟩, []) := by
  obtain ⟨t, hs, hrest, hb, ha, hc, hf, hd⟩ := h
  have hfind : findTransfer s.inFlight k addr = some t := by
    rw [hs]; exact findTransfer_append_single (fun e he => (hrest e he).2) hb (by rw [ha])
  have h1 : u16 (t.blockNum + 1) = k + 1 := by rw [hb, u16]; omega
  have h2 : u16 ((k + 1) * maxDataSize) = (k + 1) * 512 := by rw [u16, maxDataSize]; omega
  have h3 : u16 (k * maxDataSize) = k * 512 := by rw [u16, maxDataSize]; omega
  unfold ackHandler
  simp only [hfind, h1, h2, h3]
  have hc' : ¬ t.data.length ≥ (k + 1) * 512 := by rw [hd]; omega
  have hlt : t.data.length < k * 512 := by rw [hd]; exact hk
  simp only [hc', hlt, if_true, if_false, hs, hf]
  rw [delete_append_single t (fun e he => (hrest e he).1)]
theorem readAcks_of_absent (conn : Conn) (addr : Addr) (env : Nat → Bool × Time) (fuel b : Nat)
    (s : State) (out : List WriteTo) (h : lookup s.inFlight addr.string = none) :
    readAcks conn addr env fuel b s out = (out, .ok s) := by
  cases fuel with
  | zero => rfl
  | succ f =>
    rw [readAcks, h]
    rfl

theorem lookup_of_forall_ne {rest : Registry} {a : String} (h : ∀ e ∈ rest, e.1 ≠ a) :
    lookup rest a = none := by
  rw [lookup_eq_none_iff]
  intro hmem
  obtain ⟨e, he, hea⟩ := List.mem_map.1 hmem
  exact h e he hea

/-- The ACKs of blocks `k`, `k + 1`, ... of a read session over a file shorter
than 64512 bytes: each is answered by the next block, up to the ACK of block
`len / 512 + 1`, which removes the session. -/
theorem readAcks_ReadSession (conn conn' : Conn) (addr : Addr) (env : Nat → Bool × Time)
    (rest : Registry) (data : List Byte) (hlen : data.length < 64512) :
    ∀ (j k fuel : Nat) (s : State) (out : List WriteTo), ReadSession s rest conn addr k data →
      k + j = data.length / 512 + 1 → j + 1 ≤ fuel →
      readAcks conn' addr env fuel k s out =
        (out ++ (List.range' k j).map (dataBlock conn addr data), .ok ⟨rest, s.store⟩) := by
  intro j
  induction j with
  | zero =>
    intro k fuel s out h hk hfuel
    obtain ⟨fuel, rfl⟩ : ∃ f, fuel = f + 1 := ⟨fuel - 1, by omega⟩
    have hrest : ∀ e ∈ rest, e.1 ≠ addr.string := by
      obtain ⟨t, _, hr, _⟩ := h
      exact fun e he => (hr e he).1
    have hin : (lookup s.inFlight addr.string).isNone = false := by
      obtain ⟨t, hs, _⟩ := h
      rw [hs, lookup_append_single t hrest]; rfl
    have hdone := ackHandler_ReadSession_done conn' (env k).1 (env k).2 h (by omega) (by omega)
    rw [readAcks]
    simp only [hin, hdone]
    rw [readAcks_of_absent _ _ _ _ _ _ _ (lookup_of_forall_ne hrest)]
    simp
  | succ j ih =>
    intro k fuel s out h hk hfuel
    obtain ⟨fuel, rfl⟩ : ∃ f, fuel = f + 1 := ⟨fuel - 1, by omega⟩
    have hin : (lookup s.inFlight addr.string).isNone = false := by
      obtain ⟨t, hs, hr, _⟩ := h
      rw [hs, lookup_append_single t (fun e he => (hr e he).1)]; rfl
    obtain ⟨s', hack, h', hst⟩ :=
      ackHandler_ReadSession conn' (env k).1 (env k).2 h hlen (by omega)
    rw [readAcks]
    simp only [hin, hack]
    rw [ih (k + 1) fuel s' _ h' (by omega) (by omega), hst, List.range'_succ]
    simp

theorem ReadSession_assign_fresh {m : Registry} {conn : Conn} {addr : Addr} {t' : transfer}
    (st : Registry) (k : Nat) (data : List Byte)
    (hothers : ∀ e ∈ m, e.2.addr.string ≠ addr.string)
    (hf : t'.filename = addr.string) (hb : t'.blockNum = k) (ha : t'.addr = addr)
    (hc : t'.conn = conn) (hd : t'.data = data) :
    ReadSession ⟨assign m t'.filename t', st⟩ (delete m addr.string) conn addr k data := by
  refine ⟨t', by rw [hf]; rfl, ?_, hb, ha, hc, hf, hd⟩
  intro e he
  have hm := List.mem_filter.1 he
  refine ⟨?_, hothers e hm.1⟩
  have := hm.2
  rw [bne, Bool.not_eq_true', beq_eq_false_iff_ne] at this
  exact this

/-- The read request for a stored file opens the session of the requester and
sends block 0 of the file as DATA packet 1. -/
theorem rrqHandler_ReadSession (s : State) (conn : Conn) (pkt : PacketRequest) (addr : Addr)
    (ok : Bool) (now : Time) (file : transfer)
    (hfile : lookup s.store pkt.Filename = some file)
    (hothers : ∀ e ∈ s.inFlight, e.2.addr.string ≠ addr.string) :
    ∃ s₁, rrqHandler s conn pkt addr ok now = (s₁, [dataBlock conn addr file.data 0]) ∧
      ReadSession s₁ (delete s.inFlight addr.string) conn addr 1 file.data ∧
      s₁.store = s.store := by
  unfold rrqHandler
  simp only [hfile]
  have hblk : (if file.data.length ≥ maxDataSize then List.take maxDataSize file.data
      else file.data) = block file.data 0 := by
    simp only [block, Nat.zero_mul, List.drop_zero]
    split
    · rfl
    · rw [List.take_of_length_le]; omega
  rw [hblk, send_snd]
  refine ⟨_, rfl, ?_, rfl⟩
  exact ReadSession_assign_fresh _ _ _ hothers (by rw [send_filename]) (by rw [send_fst])
    (by rw [send_fst]) (by rw [send_fst]) (by rw [send_fst])

/-- C16: for a stored file of S < 64512 bytes, requested by an endpoint that
has no other session in flight, the read request followed by Ack(1), Ack(2),
... makes exactly the `WriteTo` calls of the DATA packets with block numbers 1
to S / 512 + 1, addressed to the requester, where packet i + 1 carries the
bytes of the file from offset 512 * i; then the session is removed and the
other in-flight entries and the store are as before. The payloads concatenated
in order are the bytes of the file, every payload but the last has length 512
and the last has length S mod 512. -/
theorem read_reassembly (s : State) (conn : Conn) (pkt : PacketRequest) (addr : Addr)
    (env : Nat → Bool × Time) (fuel : Nat) (file : transfer)
    (hfile : lookup s.store pkt.Filename = some file) (hsize : file.data.length < 64512)
    (hfuel : file.data.length / 512 + 1 ≤ fuel)
    (hothers : ∀ e ∈ s.inFlight, e.2.addr.string ≠ addr.string) :
    readExchange s conn pkt addr env fuel =
        ((List.range (file.data.length / 512 + 1)).map (dataBlock conn addr file.data),
          .ok ⟨delete s.inFlight addr.string, s.store⟩) ∧
      ((List.range (file.data.length / 512 + 1)).map (block file.data)).flatten = file.data ∧
      (∀ i, i < file.data.length / 512 → (block file.data i).length = 512) ∧
      (block file.data (file.data.length / 512)).length = file.data.length % 512 := by
  refine ⟨?_, ?_, block_length_of_lt file.data, block_length_last file.data⟩
  · unfold readExchange
    obtain ⟨s₁, hrrq, h₁, hst⟩ :=
      rrqHandler_ReadSession s conn pkt addr (env 0).1 (env 0).2 file hfile hothers
    rw [hrrq]
    rw [readAcks_ReadSession conn conn addr env _ file.data hsize (file.data.length / 512) 1 fuel
      s₁ _ h₁ (by omega) (by omega), hst]
    rw [List.range_eq_range', List.range'_succ]
    rfl
  · rw [flatten_blocks, List.take_of_length_le]
    omega

theorem read_reassembly_witness :
    readExchange ⟨[("g", sessionG)], [("foo.txt", fooFile)]⟩ 7 ⟨OpRRQ, "foo.txt", "octet"⟩
          clientB (fun _ => (true, 400)) 5 =
        ((List.range (fooFile.data.length / 512 + 1)).map (dataBlock 7 clientB fooFile.data),
          .ok ⟨delete [("g", sessionG)] clientB.string, [("foo.txt", fooFile)]⟩) ∧
      ((List.range (fooFile.data.length / 512 + 1)).map (block fooFile.data)).flatten =
        fooFile.data ∧
      (∀ i, i < fooFile.data.length / 512 → (block fooFile.data i).length = 512) ∧
      (block fooFile.data (fooFile.data.length / 512)).length = fooFile.data.length % 512 :=
  read_reassembly ⟨[("g", sessionG)], [("foo.txt", fooFile)]⟩ 7 ⟨OpRRQ, "foo.txt", "octet"⟩
    clientB (fun _ => (true, 400)) 5 fooFile (by decide) (by decide) (by decide) (by decide)
/-! ## The end-to-end scenario (C12) -/

/-- A payload that neither begins nor ends with a zero byte, followed by zero
padding: trimming cuts exactly the padding, which stays as spare capacity. -/
theorem Trim_padded (b : List Byte) (k : Nat) (sp : List Byte) (hne : b ≠ [])
    (hh : b.head? ≠ some 0) (hl : b.getLast? ≠ some 0) :
    Trim ⟨b ++ List.replicate k 0, sp⟩ = ⟨b, List.replicate k 0 ++ sp⟩ := by
  have hz : ∀ a ∈ List.replicate k (0 : Byte), (a == 0) = true := by
    intro a ha
    rw [List.eq_of_mem_replicate ha]; rfl
  obtain ⟨c, r, hcr⟩ := List.exists_cons_of_ne_nil (l := b.reverse) (by simpa using hne)
  have hc : (c == 0) = false := by
    have : b.getLast? = some c := by
      rw [List.getLast?_eq_head?_reverse, hcr]; rfl
    rw [this] at hl
    rw [beq_eq_false_iff_ne]
    intro h; exact hl (by rw [h])
  have hrev : (b ++ List.replicate k 0).reverse = List.replicate k 0 ++ c :: r := by
    rw [List.reverse_append, List.reverse_replicate, hcr]
  have h1 : (b ++ List.replicate k 0).rdropWhile (· == 0) = b := by
    rw [List.rdropWhile, hrev, List.dropWhile_append_of_pos hz, List.dropWhile_cons, hc]
    simp only [Bool.false_eq_true, if_false]
    rw [← hcr, List.reverse_reverse]
  have h2 : (b ++ List.replicate k 0).rtakeWhile (· == 0) = List.replicate k 0 := by
    rw [List.rtakeWhile, hrev, List.takeWhile_append_of_pos hz, List.takeWhile_cons, hc]
    simp
  obtain ⟨d, r', hdr⟩ := List.exists_cons_of_ne_nil hne
  have hd : (d == 0) = false := by
    rw [hdr] at hh
    rw [beq_eq_false_iff_ne]
    intro h; exact hh (by rw [h]; rfl)
  have h3 : b.dropWhile (· == 0) = b := by
    rw [hdr, List.dropWhile_cons, hd]
    simp
  simp only [Trim, TrimRight, TrimLeft, h1, h2, h3, hne, if_false]

/-- The dispatcher passes a DATA datagram to `dataHandler` with the payload
slice `delivered payload` and the payload length. -/
theorem newPacket_data (s : State) (conn : Conn) (addr : Addr) (b : Nat) (payload : List Byte)
    (ok : Bool) (now : Time) (hb : b < 65536) (hp : payload.length ≤ 512) :
    newPacket s conn addr (recvBuf ([0, 3] ++ putUint16 b ++ payload)) (4 + payload.length)
        ok now =
      dataHandler s conn ⟨b, delivered payload⟩ addr payload.length ok now := by
  have hblk : b / 256 % 256 * 256 + b % 256 = b := by omega
  have hsz : MaxPacketSize - (payload.length + 1 + 1 + 1 + 1) = maxDataSize - payload.length := by
    simp only [MaxPacketSize, maxDataSize]; omega
  simp [newPacket, recvBuf, putUint16, ParsePacket, Uint16, OpData, OpRRQ, OpWRQ, OpAck,
    OpError, hblk, hsz, delivered]
theorem upTo_delivered (b : List Byte) (hne : b ≠ [])
    (hh : b.head? ≠ some 0) (hl : b.getLast? ≠ some 0) :
    (Trim (delivered b)).upTo b.length = .ok b := by
  rw [delivered, Trim_padded b _ [] hne hh hl]
  simp [Slice.upTo, Slice.cap]

/-- C12: for every payload of a 512-byte block `b₁` and a 100-byte block `b₂`
that neither begin nor end with a zero byte, from the empty registries and
with every send succeeding. The write request for "foo.txt" from `A` is
answered by Ack(0) and leaves a session in flight; Data(1, `b₁`) is answered by
Ack(1) and the session stays in flight; Data(2, `b₂`) is answered by Ack(2),
stores exactly `b₁ ++ b₂` under "foo.txt" and empties the in-flight registry.
Then the read request from `B` is answered by Data(1) carrying `b₁`; Ack(1)
from `B` by Data(2) carrying `b₂`; Ack(2) from `B` removes the session and
sends nothing. -/
theorem foo_txt_scenario (conn : Conn) (A B : Addr) (mode : String) (b₁ b₂ : List Byte)
    (t₁ t₂ t₃ t₄ t₅ t₆ : Time) (h₁ : b₁.length = 512) (h₂ : b₂.length = 100)
    (hh₁ : b₁.head? ≠ some 0) (hl₁ : b₁.getLast? ≠ some 0)
    (hh₂ : b₂.head? ≠ some 0) (hl₂ : b₂.getLast? ≠ some 0) :
    ∃ s₁ s₂ s₃ s₄ s₅ s₆,
      wrqHandler {} conn ⟨OpWRQ, "foo.txt", mode⟩ A true t₁ =
        (s₁, [⟨conn, (Packet.ack ⟨0⟩).Serialize, A⟩]) ∧
      (lookup s₁.inFlight "foo.txt").isSome = true ∧
      dataHandler s₁ conn ⟨1, delivered b₁⟩ A 512 true t₂ =
        .ok (s₂, [⟨conn, (Packet.ack ⟨1⟩).Serialize, A⟩]) ∧
      (lookup s₂.inFlight "foo.txt").isSome = true ∧ s₂.store = [] ∧
      dataHandler s₂ conn ⟨2, delivered b₂⟩ A 100 true t₃ =
        .ok (s₃, [⟨conn, (Packet.ack ⟨2⟩).Serialize, A⟩]) ∧
      (lookup s₃.store "foo.txt").map transfer.data = some (b₁ ++ b₂) ∧
      (b₁ ++ b₂).length = 612 ∧ s₃.inFlight = [] ∧
      rrqHandler s₃ conn ⟨OpRRQ, "foo.txt", mode⟩ B true t₄ =
        (s₄, [⟨conn, (Packet.data ⟨1, ⟨b₁, []⟩⟩).Serialize, B⟩]) ∧
      (lookup s₄.inFlight B.string).isSome = true ∧
      ackHandler s₄ conn ⟨1⟩ B true t₅ =
        .ok (s₅, [⟨conn, (Packet.data ⟨2, ⟨b₂, []⟩⟩).Serialize, B⟩]) ∧
      ackHandler s₅ conn ⟨2⟩ B true t₆ = .ok (s₆, []) ∧
      s₆.inFlight = [] ∧ s₆.store = s₃.store := by
  have hne₁ : b₁ ≠ [] := by intro h; rw [h] at h₁; cases h₁
  have hne₂ : b₂ ≠ [] := by intro h; rw [h] at h₂; cases h₂
  have hup₁ : (Trim (delivered b₁)).upTo 512 = .ok b₁ := by
    have := upTo_delivered b₁ hne₁ hh₁ hl₁
    rw [h₁] at this; exact this
  have hup₂ : (Trim (delivered b₂)).upTo 100 = .ok b₂ := by
    have := upTo_delivered b₂ hne₂ hh₂ hl₂
    rw [h₂] at this; exact this
  -- the write
  let w₁ : transfer := ⟨t₁, A, conn, 1, "foo.txt", [], (Packet.ack ⟨0⟩).Serialize, false⟩
  let w₂ : transfer := ⟨t₂, A, conn, 2, "foo.txt", [] ++ b₁, (Packet.ack ⟨1⟩).Serialize, false⟩
  let w₃ : transfer :=
    ⟨t₃, A, conn, 3, "foo.txt", ([] ++ b₁) ++ b₂, (Packet.ack ⟨2⟩).Serialize, false⟩
  have hf₁ : findTransfer [("foo.txt", w₁)] 1 A = some w₁ := findTransfer_single rfl rfl
  have hf₂ : findTransfer [("foo.txt", w₂)] 2 A = some w₂ := findTransfer_single rfl rfl
  have hd₁ : dataHandler ⟨[("foo.txt", w₁)], []⟩ conn ⟨1, delivered b₁⟩ A 512 true t₂ =
      .ok (⟨[("foo.txt", w₂)], []⟩, [⟨conn, (Packet.ack ⟨1⟩).Serialize, A⟩]) := by
    rw [@dataHandler_of_found ⟨[("foo.txt", w₁)], []⟩ conn ⟨1, delivered b₁⟩ A 512 true t₂ w₁ b₁
      hf₁ hup₁]
    rfl
  have hd₂ : dataHandler ⟨[("foo.txt", w₂)], []⟩ conn ⟨2, delivered b₂⟩ A 100 true t₃ =
      .ok (⟨[], [("foo.txt", w₃)]⟩, [⟨conn, (Packet.ack ⟨2⟩).Serialize, A⟩]) := by
    rw [@dataHandler_of_found ⟨[("foo.txt", w₂)], []⟩ conn ⟨2, delivered b₂⟩ A 100 true t₃ w₂ b₂
      hf₂ hup₂]
    rfl
  -- the read
  have hdata : w₃.data = b₁ ++ b₂ := by simp [w₃]
  have hlen : (b₁ ++ b₂).length = 612 := by rw [List.length_append, h₁, h₂]
  have hb0 : block (b₁ ++ b₂) 0 = b₁ := by
    simp [block, maxDataSize, ← h₁]
  have hb1 : block (b₁ ++ b₂) 1 = b₂ := by
    simp only [block, maxDataSize, Nat.one_mul]
    rw [← h₁, List.drop_left, List.take_of_length_le]
    omega
  let r₁ : transfer :=
    ⟨t₄, B, conn, 1, B.string, ([] ++ b₁) ++ b₂, (Packet.data ⟨1, ⟨b₁, []⟩⟩).Serialize, false⟩
  have hrrq : rrqHandler ⟨[], [("foo.txt", w₃)]⟩ conn ⟨OpRRQ, "foo.txt", mode⟩ B true t₄ =
      (⟨[(B.string, r₁)], [("foo.txt", w₃)]⟩,
        [⟨conn, (Packet.data ⟨1, ⟨b₁, []⟩⟩).Serialize, B⟩]) := by
    have hl : lookup [("foo.txt", w₃)] "foo.txt" = some w₃ := rfl
    have hge : w₃.data.length ≥ maxDataSize := by rw [hdata, hlen]; decide
    have htk : List.take maxDataSize w₃.data = b₁ := by
      rw [hdata, maxDataSize, ← h₁, List.take_left]
    unfold rrqHandler
    simp only [hl, hge, if_true, htk]
    simp [send, transmit, assign, delete, r₁]
  have hrs : ReadSession ⟨[(B.string, r₁)], [("foo.txt", w₃)]⟩ [] conn B 1 (b₁ ++ b₂) :=
    ⟨r₁, rfl, (fun e he => by cases he), rfl, rfl, rfl, rfl, hdata⟩
  obtain ⟨s₅, hack₁, hrs₅, hst₅⟩ := ackHandler_ReadSession conn true t₅ hrs (by omega) (by omega)
  have hack₂ := ackHandler_ReadSession_done conn true t₆ hrs₅ (by omega) (by omega)
  rw [dataBlock, hb1] at hack₁
  refine ⟨⟨[("foo.txt", w₁)], []⟩, ⟨[("foo.txt", w₂)], []⟩, ⟨[], [("foo.txt", w₃)]⟩,
    ⟨[(B.string, r₁)], [("foo.txt", w₃)]⟩, s₅, ⟨[], s₅.store⟩,
    rfl, rfl, hd₁, rfl, rfl, hd₂, ?_, hlen, rfl, hrrq, ?_, hack₁, hack₂, rfl, hst₅⟩
  · simp [lookup, w₃]
  · simp [lookup]

theorem foo_txt_scenario_witness :
    ∃ s₁ s₂ s₃ s₄ s₅ s₆,
      wrqHandler {} 7 ⟨OpWRQ, "foo.txt", "octet"⟩ clientA true 100 =
        (s₁, [⟨7, (Packet.ack ⟨0⟩).Serialize, clientA⟩]) ∧
      (lookup s₁.inFlight "foo.txt").isSome = true ∧
      dataHandler s₁ 7 ⟨1, delivered (List.replicate 512 1)⟩ clientA 512 true 200 =
        .ok (s₂, [⟨7, (Packet.ack ⟨1⟩).Serialize, clientA⟩]) ∧
      (lookup s₂.inFlight "foo.txt").isSome = true ∧ s₂.store = [] ∧
      dataHandler s₂ 7 ⟨2, delivered (List.replicate 100 2)⟩ clientA 100 true 300 =
        .ok (s₃, [⟨7, (Packet.ack ⟨2⟩).Serialize, clientA⟩]) ∧
      (lookup s₃.store "foo.txt").map transfer.data =
        some (List.replicate 512 1 ++ List.replicate 100 2) ∧
      (List.replicate 512 1 ++ List.replicate 100 2 : List Byte).length = 612 ∧
      s₃.inFlight = [] ∧
      rrqHandler s₃ 7 ⟨OpRRQ, "foo.txt", "octet"⟩ clientB true 400 =
        (s₄, [⟨7, (Packet.data ⟨1, ⟨List.replicate 512 1, []⟩⟩).Serialize, clientB⟩]) ∧
      (lookup s₄.inFlight clientB.string).isSome = true ∧
      ackHandler s₄ 7 ⟨1⟩ clientB true 500 =
        .ok (s₅, [⟨7, (Packet.data ⟨2, ⟨List.replicate 100 2, []⟩⟩).Serialize, clientB⟩]) ∧
      ackHandler s₅ 7 ⟨2⟩ clientB true 600 = .ok (s₆, []) ∧
      s₆.inFlight = [] ∧ s₆.store = s₃.store :=
  foo_txt_scenario 7 clientA clientB "octet" (List.replicate 512 1) (List.replicate 100 2)
    100 200 300 400 500 600 (List.length_replicate 512 1) (List.length_replicate 100 2)
    (by decide) (by decide) (by decide) (by decide)

end Tftp
